import Mathlib

/-!
Verification development for the Minesweeper3D server core
(`server/gameEngine.js`, `server/roomManager.js`, `server/socketHandler.js`,
`server/adminHandler.js`).

Shallow embedding notes:
* The mutable `GameEngine` instance is modelled as an immutable `Engine`
  record; every JS method that mutates `this` is a function
  `Engine → Result × Engine`.
* The grid `this.grid[x][z]` is modelled as a total function
  `Nat → Nat → Tile`; JS tile objects store their own `x`/`z` coordinates
  but no code path ever reads them back from the tile (all consumers use the
  loop indices), so the `Tile` record keeps only `isMine`, `isRevealed`,
  `neighborMines`.
* `Math.random()`-driven sampling in `placeMines` is modelled by an explicit
  sample stream `rand : Nat → Nat × Nat` (attempt index ↦ sampled cell).
* Fields that a JS object literal may omit (`undefined`) are modelled with
  `Option`, `none` standing for `undefined`.
* The recursive flood fill `doReveal` is modelled with an explicit recursion-
  depth fuel; fuel large enough to cover every unrevealed tile reproduces the
  unbounded JS recursion (proved below).
-/

namespace MS

/-- Player role, `'host' | 'guest'` in the source. -/
inductive Player where
  | host
  | guest
deriving DecidableEq, Repr

/-- `player === 'host' ? 'guest' : 'host'` -/
def other : Player → Player
  | .host => .guest
  | .guest => .host

/-- `gameStatus`: `'waiting' | 'playing' | 'finished'`. -/
inductive Status where
  | waiting
  | playing
  | finished
deriving DecidableEq, Repr

/-- A grid tile (without the redundant stored coordinates, see header). -/
structure Tile where
  isMine : Bool
  isRevealed : Bool
  neighborMines : Nat
deriving DecidableEq, Repr

/-- The tile created by `generateGrid`. -/
def defaultTile : Tile := { isMine := false, isRevealed := false, neighborMines := 0 }

/-- The grid `this.grid`, as a total function on coordinates. -/
def GridF : Type := Nat → Nat → Tile

/-- Player scores, `this.scores = { host, guest }`. -/
structure Scores where
  host : Nat
  guest : Nat
deriving DecidableEq, Repr

/-- `this.scores[player] += n` -/
def addScore (s : Scores) (p : Player) (n : Nat) : Scores :=
  match p with
  | .host => { s with host := s.host + n }
  | .guest => { s with guest := s.guest + n }

/-- Game settings object; a `0` numeric field models a JS falsy/absent value
(`settings.gridSize || CONFIG.GRID_SIZE` style defaulting). -/
structure Settings where
  gridSize : Nat := 0
  minesCount : Nat := 0
  turnTimeLimit : Nat := 0
  startingPlayer : Option Player := none

/-- JS `a || d` defaulting for numeric settings (0 and undefined are falsy). -/
def jsOr (a d : Nat) : Nat := if a = 0 then d else a

/-- CONFIG.MIN_REVEALS_TO_PASS -/
def MIN_REVEALS_TO_PASS : Nat := 1

/-- The per-room game engine state (`GameEngine` fields). -/
structure Engine where
  gridSize : Nat
  minesCount : Nat
  turnTimeLimit : Nat
  grid : GridF
  startingPlayer : Player
  currentPlayer : Player
  revealsThisTurn : Nat
  totalRevealed : Nat
  gameStatus : Status
  winner : Option Player
  lastPassedBy : Option Player
  isFirstMove : Bool
  minesPlaced : Bool
  timeRemaining : Option Nat
  scores : Scores

/-- `new GameEngine(settings, ...)` (CONFIG defaults 10 / 18 / 30). -/
def mkEngine (s : Settings) : Engine :=
  { gridSize := jsOr s.gridSize 10
    minesCount := jsOr s.minesCount 18
    turnTimeLimit := jsOr s.turnTimeLimit 30
    grid := fun _ _ => defaultTile
    startingPlayer := s.startingPlayer.getD .host
    currentPlayer := s.startingPlayer.getD .host
    revealsThisTurn := 0
    totalRevealed := 0
    gameStatus := .waiting
    winner := none
    lastPassedBy := none
    isFirstMove := true
    minesPlaced := false
    timeRemaining := none
    scores := { host := 0, guest := 0 } }

/-- `generateGrid()`: empty grid, mines deferred, status `playing`. -/
def generateGrid (e : Engine) : Engine :=
  { e with grid := fun _ _ => defaultTile
           minesPlaced := false
           isFirstMove := true
           gameStatus := .playing
           currentPlayer := e.startingPlayer
           revealsThisTurn := 0
           totalRevealed := 0 }

/-- The 8 neighbour offsets in JS iteration order (dx outer, dz inner, skip 0,0). -/
def offsets : List (Int × Int) :=
  [(-1, -1), (-1, 0), (-1, 1), (0, -1), (0, 1), (1, -1), (1, 0), (1, 1)]

/-- The in-bounds 8-neighbourhood of `(x, z)` on a `gs × gs` grid. -/
def neighbors (gs x z : Nat) : List (Nat × Nat) :=
  offsets.filterMap fun d =>
    let nx : Int := (x : Int) + d.1
    let nz : Int := (z : Int) + d.2
    if 0 ≤ nx ∧ nx < (gs : Int) ∧ 0 ≤ nz ∧ nz < (gs : Int) then
      some (nx.toNat, nz.toNat)
    else none

/-- `countNeighborMines(x, z)`. -/
def countNeighborMines (g : GridF) (gs x z : Nat) : Nat :=
  ((neighbors gs x z).filter fun p => (g p.1 p.2).isMine).length

/-- Membership of cell `(a, b)` in the safe zone built by `placeMines(sx, sz)`
(the clicked tile's closed 3×3 neighbourhood clipped to the grid). -/
def inSafeZone (gs sx sz a b : Nat) : Bool :=
  ((a : Int) - (sx : Int)).natAbs ≤ 1 && ((b : Int) - (sz : Int)).natAbs ≤ 1
    && a < gs && b < gs

/-- Set `isMine := true` at one cell. -/
def setMine (g : GridF) (x z : Nat) : GridF := fun a b =>
  if a = x ∧ b = z then { g a b with isMine := true } else g a b

/-- The mine-placement sampling loop of `placeMines`
(`while (placedMines < minesCount && attempts < maxAttempts)`).
`left` is the remaining attempt budget, `i` the attempt index into the
sample stream, `placed` the mines placed so far. -/
def mineLoop (gs mc sx sz : Nat) (rand : Nat → Nat × Nat) :
    Nat → Nat → Nat → GridF → GridF × Nat
  | 0, _, placed, g => (g, placed)
  | left + 1, i, placed, g =>
    if mc ≤ placed then (g, placed)
    else
      let s := rand i
      if inSafeZone gs sx sz s.1 s.2 || (g s.1 s.2).isMine then
        mineLoop gs mc sx sz rand left (i + 1) placed g
      else
        mineLoop gs mc sx sz rand left (i + 1) (placed + 1) (setMine g s.1 s.2)

/-- `placeMines(safeX, safeZ)`: bounded random placement avoiding the safe
zone, then `neighborMines` recomputation for every non-mine tile. -/
def placeMines (rand : Nat → Nat × Nat) (sx sz : Nat) (e : Engine) : Engine :=
  let gs := e.gridSize
  let res := mineLoop gs e.minesCount sx sz rand (gs * gs * 10) 0 0 e.grid
  let gt := res.1
  let gFinal : GridF := fun a b =>
    if (gt a b).isMine then gt a b
    else { gt a b with neighborMines := countNeighborMines gt gs a b }
  { e with grid := gFinal, minesPlaced := true }

/-- A revealed-tile record as pushed into `revealedTiles` by `doReveal`. -/
structure RTile where
  x : Nat
  z : Nat
  isMine : Bool
  neighborMines : Nat
deriving DecidableEq, Repr

/-- Coordinates of a revealed-tile list. -/
def coordsOf (l : List RTile) : List (Nat × Nat) := l.map fun r => (r.x, r.z)

/-- Mark one cell revealed. -/
def setRevealed (g : GridF) (x z : Nat) : GridF := fun a b =>
  if a = x ∧ b = z then { g a b with isRevealed := true } else g a b

/-- Sequential flood over a list of coordinates, threading the grid; the
recursive descent function is passed in as `rec`. Mirrors the nested
`for dx / for dz` loops of `doReveal`. -/
def revealFoldFn (rec : Nat → Nat → GridF → List RTile × GridF) :
    List (Nat × Nat) → GridF → List RTile × GridF
  | [], g => ([], g)
  | p :: ps, g =>
    let r1 := rec p.1 p.2 g
    let r2 := revealFoldFn rec ps r1.2
    (r1.1 ++ r2.1, r2.2)

/-- `doReveal(x, z)` with explicit recursion-depth fuel. With fuel exceeding
the number of unrevealed tiles this is exactly the JS recursion (see the
fuel-stability theorem below). -/
def doRevealF (gs : Nat) : Nat → Nat → Nat → GridF → List RTile × GridF
  | 0, _, _, g => ([], g)
  | fuel + 1, x, z, g =>
    let t := g x z
    if t.isRevealed then ([], g)
    else
      let g1 := setRevealed g x z
      let head : RTile := { x := x, z := z, isMine := t.isMine, neighborMines := t.neighborMines }
      if t.isMine = false ∧ t.neighborMines = 0 then
        let rest := revealFoldFn (doRevealF gs fuel) (neighbors gs x z) g1
        (head :: rest.1, rest.2)
      else
        ([head], g1)

/-- `doReveal` at the canonical (always-sufficient) fuel `gs² + 1`. -/
def doReveal (gs x z : Nat) (g : GridF) : List RTile × GridF :=
  doRevealF gs (gs * gs + 1) x z g

/-- `checkWinCondition()`: `totalRevealed >= gridSize² - minesCount`
(computed in ℤ: the JS subtraction can go negative). -/
def winCond (e : Engine) : Bool :=
  (e.totalRevealed : Int) ≥ (e.gridSize : Int) * (e.gridSize : Int) - (e.minesCount : Int)

/-- `getAllMines()`. -/
def getAllMines (e : Engine) : List (Nat × Nat) :=
  ((List.range e.gridSize).flatMap fun x =>
    (List.range e.gridSize).map fun z => (x, z)).filter
    fun p => (e.grid p.1 p.2).isMine

/-- The distinct rejection reasons of `revealTile`, in source order. -/
inductive RevealError where
  | notPlaying
  | notYourTurn
  | invalidCoords
  | alreadyRevealed
deriving DecidableEq, Repr

/-- Terminal reasons appearing in engine results. -/
inductive GameReason where
  | allSafeRevealed
  | timeoutNoAction
deriving DecidableEq, Repr

/-- The result object returned by `revealTile` (absent JS fields default). -/
structure RevealResult where
  success : Bool := false
  error : Option RevealError := none
  hitMine : Bool := false
  revealedTiles : List RTile := []
  gameOver : Bool := false
  winner : Option Player := none
  loser : Option Player := none
  reason : Option GameReason := none
  scores : Scores := { host := 0, guest := 0 }
  canPass : Bool := false
  revealsThisTurn : Nat := 0
  timerStarted : Bool := false
  timeRemaining : Option Nat := none
  allMines : List (Nat × Nat) := []

/-- The engine after the optional first-click `placeMines` call inside
`revealTile` (`if (!this.minesPlaced) this.placeMines(x, z)`). -/
def e1of (rand : Nat → Nat × Nat) (xn zn : Nat) (e : Engine) : Engine :=
  if e.minesPlaced then e else placeMines rand xn zn e

/-- The body of `revealTile` after all four validations have passed;
`xn zn` are the validated in-bounds coordinates. -/
def revealApply (rand : Nat → Nat × Nat) (xn zn : Nat) (p : Player) (e : Engine) :
    RevealResult × Engine :=
  let isFirst := e.isFirstMove
  let e1 := e1of rand xn zn e
  let fr := doReveal e1.gridSize xn zn e1.grid
  let n := fr.1.length
  let e2 := { e1 with grid := fr.2
                      revealsThisTurn := e1.revealsThisTurn + n
                      totalRevealed := e1.totalRevealed + n }
  let e3 := if isFirst then e2 else { e2 with scores := addScore e2.scores p (n * 10) }
  let e4 := if e3.isFirstMove
            then { e3 with isFirstMove := false, timeRemaining := some e3.turnTimeLimit }
            else e3
  if (fr.2 xn zn).isMine then
    ({ success := true, hitMine := true, revealedTiles := fr.1, gameOver := true
       winner := some (other p), loser := some p, scores := e4.scores
       allMines := getAllMines e4 },
     { e4 with gameStatus := .finished, winner := some (other p) })
  else if winCond e4 then
    ({ success := true, hitMine := false, revealedTiles := fr.1, gameOver := true
       winner := some (e4.lastPassedBy.getD p), reason := some .allSafeRevealed
       scores := e4.scores },
     { e4 with gameStatus := .finished, winner := some (e4.lastPassedBy.getD p) })
  else
    ({ success := true, hitMine := false, revealedTiles := fr.1, gameOver := false
       canPass := decide (e4.revealsThisTurn ≥ MIN_REVEALS_TO_PASS)
       revealsThisTurn := e4.revealsThisTurn, scores := e4.scores
       timerStarted := isFirst, timeRemaining := e4.timeRemaining }, e4)

/-- `revealTile(x, z, player)`. Coordinates are ℤ because the client may send
negative numbers (the source checks `x < 0 || x >= gridSize || ...`). -/
def revealTile (rand : Nat → Nat × Nat) (x z : Int) (p : Player) (e : Engine) :
    RevealResult × Engine :=
  if e.gameStatus ≠ .playing then ({ error := some .notPlaying }, e)
  else if p ≠ e.currentPlayer then ({ error := some .notYourTurn }, e)
  else if x < 0 ∨ (e.gridSize : Int) ≤ x ∨ z < 0 ∨ (e.gridSize : Int) ≤ z then
    ({ error := some .invalidCoords }, e)
  else if (e.grid x.toNat z.toNat).isRevealed then ({ error := some .alreadyRevealed }, e)
  else revealApply rand x.toNat z.toNat p e

/-- Result of `passTurn` (rejections collapsed to `success = false`). -/
structure PassResult where
  success : Bool
  nextPlayer : Option Player := none
deriving DecidableEq, Repr

/-- `passTurn(player)`. -/
def passTurn (p : Player) (e : Engine) : PassResult × Engine :=
  if e.gameStatus ≠ .playing then ({ success := false }, e)
  else if p ≠ e.currentPlayer then ({ success := false }, e)
  else if e.revealsThisTurn < MIN_REVEALS_TO_PASS then ({ success := false }, e)
  else
    ({ success := true, nextPlayer := some (other p) },
     { e with lastPassedBy := some p
              currentPlayer := other p
              revealsThisTurn := 0
              timeRemaining := some e.turnTimeLimit })

/-- Result of `handleTimeout`. -/
structure TimeoutResult where
  gameOver : Bool
  winner : Option Player := none
  loser : Option Player := none
  reason : Option GameReason := none
  autoPassed : Bool := false
deriving DecidableEq, Repr

/-- `handleTimeout()`: forfeit when no reveal happened this turn, else
auto-pass. -/
def handleTimeout (e : Engine) : TimeoutResult × Engine :=
  if e.revealsThisTurn = 0 then
    ({ gameOver := true, winner := some (other e.currentPlayer)
       loser := some e.currentPlayer, reason := some .timeoutNoAction },
     { e with gameStatus := .finished, winner := some (other e.currentPlayer) })
  else
    ({ gameOver := false, autoPassed := true, winner := none },
     { e with lastPassedBy := some e.currentPlayer
              currentPlayer := other e.currentPlayer
              revealsThisTurn := 0
              timeRemaining := some e.turnTimeLimit })

/-- A tile as serialised into a grid snapshot; `none` models a JS field set
to `undefined`. -/
structure CTile where
  x : Nat
  z : Nat
  isRevealed : Bool
  isMine : Option Bool
  neighborMines : Option Nat
deriving DecidableEq, Repr

/-- Fallback element for total list indexing in statements. -/
def noTile : CTile := { x := 0, z := 0, isRevealed := false, isMine := none, neighborMines := none }

/-- `getClientGrid()`: masks `isMine`/`neighborMines` on unrevealed tiles. -/
def getClientGrid (e : Engine) : List (List CTile) :=
  (List.range e.gridSize).map fun x =>
    (List.range e.gridSize).map fun z =>
      let t := e.grid x z
      { x := x, z := z, isRevealed := t.isRevealed
        isMine := if t.isRevealed then some t.isMine else none
        neighborMines := if t.isRevealed then some t.neighborMines else none }

/-- `getFullGridForSpectator()`: god view, every tile fully populated. -/
def getFullGridForSpectator (e : Engine) : List (List CTile) :=
  (List.range e.gridSize).map fun x =>
    (List.range e.gridSize).map fun z =>
      let t := e.grid x z
      { x := x, z := z, isRevealed := t.isRevealed
        isMine := some t.isMine, neighborMines := some t.neighborMines }

/-- The engine-state snapshot object shared by `getGameState` /
`getSpectatorGameState` (they differ only in the `grid` field). -/
structure GameStateView where
  gridSize : Nat
  minesCount : Nat
  currentPlayer : Player
  revealsThisTurn : Nat
  totalRevealed : Nat
  gameStatus : Status
  winner : Option Player
  timeRemaining : Option Nat
  turnTimeLimit : Nat
  isFirstMove : Bool
  canPass : Bool
  scores : Scores
  grid : List (List CTile)

/-- `getGameState()`: player view, `grid := this.getClientGrid()`. -/
def getGameState (e : Engine) : GameStateView :=
  { gridSize := e.gridSize, minesCount := e.minesCount
    currentPlayer := e.currentPlayer, revealsThisTurn := e.revealsThisTurn
    totalRevealed := e.totalRevealed, gameStatus := e.gameStatus
    winner := e.winner, timeRemaining := e.timeRemaining
    turnTimeLimit := e.turnTimeLimit, isFirstMove := e.isFirstMove
    canPass := decide (e.revealsThisTurn ≥ MIN_REVEALS_TO_PASS)
    scores := e.scores, grid := getClientGrid e }

/-- `getSpectatorGameState()`: `grid := this.getFullGridForSpectator()`. -/
def getSpectatorGameState (e : Engine) : GameStateView :=
  { getGameState e with grid := getFullGridForSpectator e }

/-- `matchStats` counters. -/
structure MatchStats where
  gamesPlayed : Nat
  hostWins : Nat
  guestWins : Nat
deriving DecidableEq, Repr

/-- A player slot (`{ socketId, name, score }`). -/
structure PlayerSlot where
  socketId : String
  name : String
  score : Nat
deriving DecidableEq, Repr

/-- A room as produced by `roomManager.createRoom` and mutated by
`socketHandler`. `matchStats` and `nextStartingPlayer` do not appear in the
`createRoom` object literal, i.e. they are `undefined` until someone assigns
them; both are therefore `Option`s. -/
structure Room where
  code : String
  host : PlayerSlot
  guest : Option PlayerSlot
  gameState : Status
  settings : Settings
  game : Option Engine
  createdAt : Nat
  gameStartedAt : Option Nat
  spectators : List String
  matchStats : Option MatchStats
  nextStartingPlayer : Option Player

/-- `roomManager.createRoom(hostSocketId, hostName, options)`. The generated
random room code is passed in as a parameter. Note the object literal: it has
no `matchStats` and no `nextStartingPlayer` field. -/
def createRoom (code hostSocketId hostName : String) (options : Settings) (now : Nat) : Room :=
  { code := code
    host := { socketId := hostSocketId
              name := if hostName = "" then "Player1" else hostName
              score := 0 }
    guest := none
    gameState := .waiting
    settings := { gridSize := jsOr options.gridSize 10
                  minesCount := jsOr options.minesCount 18
                  turnTimeLimit := jsOr options.turnTimeLimit 30 }
    game := none
    createdAt := now
    gameStartedAt := none
    spectators := []
    matchStats := none
    nextStartingPlayer := none }

/-- The `matchStats` increments performed by `socketHandler` on a natural
game end (`room.matchStats.gamesPlayed++` etc.). -/
def bumpMatchStats (ms : MatchStats) (winner : Option Player) : MatchStats :=
  let ms1 := { ms with gamesPlayed := ms.gamesPlayed + 1 }
  match winner with
  | some .host => { ms1 with hostWins := ms1.hostWins + 1 }
  | some .guest => { ms1 with guestWins := ms1.guestWins + 1 }
  | none => ms1

/-- The natural-game-end stats update step of the `reveal_tile` /
timeout handlers. In JS, `room.matchStats.gamesPlayed++` throws a
`TypeError` when `room.matchStats` is `undefined`; that crash is modelled as
`none`. -/
def gameOverStatsStep (room : Room) (winner : Option Player) : Option Room :=
  room.matchStats.map fun ms => { room with matchStats := some (bumpMatchStats ms winner) }

/-- `roomManager.leaveRoom` for a guest disconnect (the mid-game forfeit
path); it touches only `guest` and `gameState`. -/
def leaveRoomGuest (room : Room) : Room :=
  { room with guest := none
              gameState := if room.gameState = .playing then .finished else .waiting }

/-- The `game` field of the `spectate_joined` reply built by the
`public_spectate` handler: `room.game ? room.game.getGameState() : null`. -/
def publicSpectateReplyGame (room : Room) : Option GameStateView :=
  room.game.map getGameState

/-- The `game` field of the `spectate_joined` reply built by the admin
`admin_spectate` handler: `room.game ? room.game.getSpectatorGameState() : null`. -/
def adminSpectateReplyGame (room : Room) : Option GameStateView :=
  room.game.map getSpectatorGameState

/-- Outcome of the `/admin` namespace handshake middleware. -/
inductive HandshakeOutcome where
  | admitted (isAuthenticated : Bool)
  | rejectedAuth
deriving DecidableEq, Repr

/-- The JWT handshake middleware of `setupAdminHandler`, abstracted over the
token verifier (`verifyToken` returning non-null ↦ `verify t = true`).
A missing token is admitted with `isAuthenticated = false`; a present but
non-verifying token makes the middleware call `next(new Error(...))`,
rejecting the connection. -/
def adminAuthMiddleware (verify : String → Bool) (token : Option String) : HandshakeOutcome :=
  match token with
  | none => .admitted false
  | some t => if verify t then .admitted true else .rejectedAuth

/-! ### Reachability of engine states

States reachable from a fresh game (`startGame` constructs an engine and
calls `generateGrid`) through the dispatcher-visible operations. The timeout
step carries the `gameStatus === 'playing'` guard that `socketHandler`'s
`handleTimeout` wrapper enforces before calling the engine. -/

/-- One dispatcher-level engine transition. -/
inductive EStep : Engine → Engine → Prop where
  | reveal (rand : Nat → Nat × Nat) (x z : Int) (p : Player) (e : Engine) :
      EStep e (revealTile rand x z p e).2
  | pass (p : Player) (e : Engine) : EStep e (passTurn p e).2
  | timeout (e : Engine) : e.gameStatus = .playing → EStep e (handleTimeout e).2

/-- Engine states reachable in some game. -/
inductive Reachable : Engine → Prop where
  | init (s : Settings) : Reachable (generateGrid (mkEngine s))
  | step {e e' : Engine} : Reachable e → EStep e e' → Reachable e'

/-! ### Counting cells -/

/-- Number of in-bounds cells satisfying `P`. -/
def gridCount (gs : Nat) (P : Tile → Bool) (g : GridF) : Nat :=
  ∑ q ∈ Finset.range gs ×ˢ Finset.range gs, (if P (g q.1 q.2) then 1 else 0)

/-- Number of mines on the grid. -/
def mineCnt (gs : Nat) (g : GridF) : Nat := gridCount gs (fun t => t.isMine) g

/-- Number of revealed tiles. -/
def revCnt (gs : Nat) (g : GridF) : Nat := gridCount gs (fun t => t.isRevealed) g

/-- Number of unrevealed tiles. -/
def unrevCnt (gs : Nat) (g : GridF) : Nat := gridCount gs (fun t => !t.isRevealed) g

/-- Neighbour-count consistency: what `placeMines` establishes for every
non-mine tile. -/
def NC (gs : Nat) (g : GridF) : Prop :=
  ∀ x, x < gs → ∀ z, z < gs → (g x z).isMine = false →
    (g x z).neighborMines = countNeighborMines g gs x z

instance (gs : Nat) (g : GridF) : Decidable (NC gs g) := by
  unfold NC; infer_instance

/-- Reveal every cell in `S` at once (the cumulative effect of a flood). -/
def revealMany (g : GridF) (S : List (Nat × Nat)) : GridF := fun a b =>
  if (a, b) ∈ S then { g a b with isRevealed := true } else g a b

lemma mem_grid_product {gs a b : Nat} (ha : a < gs) (hb : b < gs) :
    ((a, b) : Nat × Nat) ∈ Finset.range gs ×ˢ Finset.range gs := by
  simp [Finset.mem_product, ha, hb]

lemma gridCount_congr {gs : Nat} {P : Tile → Bool} {g g' : GridF}
    (h : ∀ a b, a < gs → b < gs → P (g' a b) = P (g a b)) :
    gridCount gs P g' = gridCount gs P g := by
  unfold gridCount
  refine Finset.sum_congr rfl fun q hq => ?_
  rcases Finset.mem_product.mp hq with ⟨h1, h2⟩
  rw [h q.1 q.2 (Finset.mem_range.mp h1) (Finset.mem_range.mp h2)]

lemma gridCount_eq_zero {gs : Nat} {P : Tile → Bool} {g : GridF}
    (h : ∀ a b, a < gs → b < gs → P (g a b) = false) :
    gridCount gs P g = 0 := by
  unfold gridCount
  refine Finset.sum_eq_zero fun q hq => ?_
  rcases Finset.mem_product.mp hq with ⟨h1, h2⟩
  rw [h q.1 q.2 (Finset.mem_range.mp h1) (Finset.mem_range.mp h2)]
  rfl

lemma gridCount_point {gs a b : Nat} {P : Tile → Bool} {g g' : GridF}
    (ha : a < gs) (hb : b < gs)
    (h : ∀ x z, ¬(x = a ∧ z = b) → g' x z = g x z) :
    gridCount gs P g' + (if P (g a b) then 1 else 0)
      = gridCount gs P g + (if P (g' a b) then 1 else 0) := by
  unfold gridCount
  have hm := @mem_grid_product gs _ _ ha hb
  rw [← Finset.sum_erase_add _ _ hm, ← Finset.sum_erase_add _ (fun q => if P (g q.1 q.2) then 1 else 0) hm]
  have hco : ∀ q ∈ (Finset.range gs ×ˢ Finset.range gs).erase (a, b),
      (if P (g' q.1 q.2) then 1 else 0) = (if P (g q.1 q.2) then (1 : Nat) else 0) := by
    intro q hq
    have hne : q ≠ (a, b) := (Finset.mem_erase.mp hq).1
    have : ¬(q.1 = a ∧ q.2 = b) := by
      intro hc; exact hne (Prod.ext hc.1 hc.2)
    rw [h q.1 q.2 this]
  rw [Finset.sum_congr rfl hco]
  dsimp only
  omega

lemma gridCount_add_le {gs : Nat} {P Q : Tile → Bool} {g : GridF}
    (h : ∀ a b, a < gs → b < gs → P (g a b) = true → Q (g a b) = false) :
    gridCount gs P g + gridCount gs Q g ≤ gs * gs := by
  unfold gridCount
  rw [← Finset.sum_add_distrib]
  calc ∑ q ∈ Finset.range gs ×ˢ Finset.range gs,
        ((if P (g q.1 q.2) then 1 else 0) + (if Q (g q.1 q.2) then 1 else 0))
      ≤ ∑ _q ∈ Finset.range gs ×ˢ Finset.range gs, 1 := by
        refine Finset.sum_le_sum fun q hq => ?_
        rcases Finset.mem_product.mp hq with ⟨h1, h2⟩
        have hpq := h q.1 q.2 (Finset.mem_range.mp h1) (Finset.mem_range.mp h2)
        have key : ∀ u v : Bool, (u = true → v = false) →
            (if u = true then (1 : Nat) else 0) + (if v = true then 1 else 0) ≤ 1 := by
          decide
        exact key _ _ hpq
    _ = gs * gs := by
        rw [Finset.sum_const, Finset.card_product, Finset.card_range, smul_eq_mul, mul_one]

lemma gridCount_le_total {gs : Nat} {P : Tile → Bool} {g : GridF} :
    gridCount gs P g ≤ gs * gs := by
  have h := @gridCount_add_le gs P (fun _ => false) g (fun _ _ _ _ _ => rfl)
  have h0 : gridCount gs (fun _ => false) g = 0 := gridCount_eq_zero fun _ _ _ _ => rfl
  omega

lemma gridCount_pos {gs a b : Nat} {P : Tile → Bool} {g : GridF}
    (ha : a < gs) (hb : b < gs) (hP : P (g a b) = true) :
    1 ≤ gridCount gs P g := by
  unfold gridCount
  calc (1 : Nat) = (if P (g a b) then 1 else 0) := by simp [hP]
    _ ≤ _ := Finset.single_le_sum (f := fun q : Nat × Nat => if P (g q.1 q.2) then 1 else 0)
        (fun _ _ => Nat.zero_le _) (mem_grid_product ha hb)

lemma gridCount_not_add {gs : Nat} {P : Tile → Bool} {g : GridF} :
    gridCount gs (fun t => !P t) g + gridCount gs P g = gs * gs := by
  unfold gridCount
  rw [← Finset.sum_add_distrib]
  calc ∑ q ∈ Finset.range gs ×ˢ Finset.range gs,
        ((if (!P (g q.1 q.2)) = true then 1 else 0) + (if P (g q.1 q.2) then 1 else 0))
      = ∑ _q ∈ Finset.range gs ×ˢ Finset.range gs, 1 := by
        refine Finset.sum_congr rfl fun q _ => ?_
        have key : ∀ u : Bool,
            (if (!u) = true then (1 : Nat) else 0) + (if u = true then 1 else 0) = 1 := by
          decide
        exact key _
    _ = gs * gs := by
        rw [Finset.sum_const, Finset.card_product, Finset.card_range, smul_eq_mul, mul_one]

lemma revealMany_nil (g : GridF) : ∀ a b, revealMany g [] a b = g a b := by
  intro a b; simp [revealMany]

lemma revealMany_cons_point {g : GridF} {p : Nat × Nat} {S : List (Nat × Nat)} :
    ∀ a b, ¬(a = p.1 ∧ b = p.2) →
    revealMany g (p :: S) a b = revealMany g S a b := by
  intro a b hab
  have : ((a, b) : Nat × Nat) ≠ p := by
    intro hc; exact hab ⟨congrArg Prod.fst hc, congrArg Prod.snd hc⟩
  simp only [revealMany, List.mem_cons]
  rcases Decidable.em ((a, b) ∈ S) with h | h <;> simp [h, this]

lemma revCnt_revealMany {gs : Nat} {g : GridF} {S : List (Nat × Nat)}
    (hnd : S.Nodup) (hin : ∀ p ∈ S, p.1 < gs ∧ p.2 < gs)
    (hur : ∀ p ∈ S, (g p.1 p.2).isRevealed = false) :
    revCnt gs (revealMany g S) = revCnt gs g + S.length := by
  induction S with
  | nil =>
    simp only [List.length_nil, Nat.add_zero]
    exact gridCount_congr fun a b _ _ => by rw [revealMany_nil]
  | cons p S ih =>
    have hpS : p ∉ S := (List.nodup_cons.mp hnd).1
    have hnd' := (List.nodup_cons.mp hnd).2
    have hinp := hin p (List.mem_cons_self p S)
    have hpoint := @gridCount_point gs _ _ (fun t => t.isRevealed)
      (revealMany g S) (revealMany g (p :: S)) hinp.1 hinp.2
      revealMany_cons_point
    have hbase : revealMany g S p.1 p.2 = g p.1 p.2 := by
      simp [revealMany, hpS]
    have hnew : (revealMany g (p :: S) p.1 p.2).isRevealed = true := by
      simp [revealMany, List.mem_cons]
    have hold : (revealMany g S p.1 p.2).isRevealed = false := by
      rw [hbase]; exact hur p (List.mem_cons_self p S)
    have ihh := ih hnd' (fun q hq => hin q (List.mem_cons_of_mem p hq))
      (fun q hq => hur q (List.mem_cons_of_mem p hq))
    unfold revCnt at *
    dsimp only at hpoint
    rw [hold, hnew] at hpoint
    simp at hpoint
    simp only [List.length_cons]
    omega

lemma isMine_revealMany (g : GridF) (S : List (Nat × Nat)) :
    ∀ a b, (revealMany g S a b).isMine = (g a b).isMine := by
  intro a b; unfold revealMany; split <;> rfl

lemma neighborMines_revealMany (g : GridF) (S : List (Nat × Nat)) :
    ∀ a b, (revealMany g S a b).neighborMines = (g a b).neighborMines := by
  intro a b; unfold revealMany; split <;> rfl

lemma mineCnt_revealMany {gs : Nat} (g : GridF) (S : List (Nat × Nat)) :
    mineCnt gs (revealMany g S) = mineCnt gs g :=
  gridCount_congr fun a b _ _ => by rw [isMine_revealMany]

lemma unrevCnt_revealMany {gs : Nat} {g : GridF} {S : List (Nat × Nat)}
    (hnd : S.Nodup) (hin : ∀ p ∈ S, p.1 < gs ∧ p.2 < gs)
    (hur : ∀ p ∈ S, (g p.1 p.2).isRevealed = false) :
    unrevCnt gs (revealMany g S) + S.length = unrevCnt gs g := by
  have h1 : unrevCnt gs (revealMany g S) + revCnt gs (revealMany g S) = gs * gs :=
    gridCount_not_add
  have h2 : unrevCnt gs g + revCnt gs g = gs * gs := gridCount_not_add
  have h3 := @revCnt_revealMany gs _ _ hnd hin hur
  have h4 : revCnt gs g ≤ gs * gs := gridCount_le_total
  omega

lemma unrevCnt_le_total {gs : Nat} {g : GridF} : unrevCnt gs g ≤ gs * gs :=
  gridCount_le_total

/-! ### Flood-fill structure lemmas -/

lemma neighbors_inBounds {gs x z : Nat} : ∀ p ∈ neighbors gs x z, p.1 < gs ∧ p.2 < gs := by
  intro p hp
  unfold neighbors at hp
  rcases List.mem_filterMap.mp hp with ⟨d, _, hd⟩
  dsimp only at hd
  split at hd
  · rename_i hcond
    obtain ⟨h1, h2, h3, h4⟩ := hcond
    cases hd
    constructor <;> [skip; skip] <;> dsimp only <;> omega
  · exact absurd hd (by simp)

lemma countNeighborMines_congr {gs x z : Nat} {g g' : GridF}
    (h : ∀ a b, (g' a b).isMine = (g a b).isMine) :
    countNeighborMines g' gs x z = countNeighborMines g gs x z := by
  unfold countNeighborMines
  congr 1
  refine List.filter_congr fun p _ => ?_
  rw [h]

lemma NC_congr {gs : Nat} {g g' : GridF}
    (h : ∀ a b, (g' a b).isMine = (g a b).isMine
      ∧ (g' a b).neighborMines = (g a b).neighborMines) :
    NC gs g → NC gs g' := by
  intro hnc x hx z hz hm
  rw [(h x z).2, countNeighborMines_congr fun a b => (h a b).1]
  exact hnc x hx z hz (by rw [← (h x z).1]; exact hm)

lemma zero_neighbors {gs x z : Nat} {g : GridF} (hnc : NC gs g)
    (hx : x < gs) (hz : z < gs)
    (hm : (g x z).isMine = false) (h0 : (g x z).neighborMines = 0) :
    ∀ p ∈ neighbors gs x z, (g p.1 p.2).isMine = false := by
  intro p hp
  have hcnt : countNeighborMines g gs x z = 0 := by
    rw [← hnc x hx z hz hm]; exact h0
  unfold countNeighborMines at hcnt
  have := List.length_eq_zero.mp hcnt
  have hnil := List.filter_eq_nil_iff.mp this
  have := hnil p hp
  simpa using this

lemma revealMany_append (g : GridF) (C1 C2 : List (Nat × Nat)) :
    ∀ a b, revealMany (revealMany g C1) C2 a b = revealMany g (C1 ++ C2) a b := by
  intro a b
  unfold revealMany
  by_cases h1 : ((a, b) : Nat × Nat) ∈ C1 <;>
    by_cases h2 : ((a, b) : Nat × Nat) ∈ C2 <;>
      simp [h1, h2, List.mem_append]

lemma revealMany_point_congr {g g' : GridF} (C : List (Nat × Nat)) {a b : Nat}
    (h : g' a b = g a b) : revealMany g' C a b = revealMany g C a b := by
  unfold revealMany; rw [h]

lemma revealMany_mem_revealed {g : GridF} {C : List (Nat × Nat)} {a b : Nat}
    (h : ((a, b) : Nat × Nat) ∈ C) : (revealMany g C a b).isRevealed = true := by
  unfold revealMany; rw [if_pos h]

lemma revealMany_isRevealed_of {g : GridF} {C : List (Nat × Nat)} {a b : Nat}
    (h : (revealMany g C a b).isRevealed = false) :
    ((a, b) : Nat × Nat) ∉ C ∧ (g a b).isRevealed = false := by
  by_cases hm : ((a, b) : Nat × Nat) ∈ C
  · rw [revealMany_mem_revealed hm] at h; cases h
  · refine ⟨hm, ?_⟩
    unfold revealMany at h; rw [if_neg hm] at h; exact h

lemma revealMany_not_mem {g : GridF} {C : List (Nat × Nat)} {a b : Nat}
    (h : ((a, b) : Nat × Nat) ∉ C) : revealMany g C a b = g a b := by
  unfold revealMany; rw [if_neg h]

/-- The full structural specification of one `doReveal(x, z)` call on grid
`g` producing `out = (revealedTiles, grid')`. -/
def FloodSpec (gs x z : Nat) (g : GridF) (out : List RTile × GridF) : Prop :=
  (∀ a b, out.2 a b = revealMany g (coordsOf out.1) a b)
  ∧ (∀ r ∈ out.1, (g r.x r.z).isRevealed = false ∧ r.isMine = (g r.x r.z).isMine
      ∧ r.neighborMines = (g r.x r.z).neighborMines)
  ∧ (coordsOf out.1).Nodup
  ∧ (x < gs → z < gs → ∀ r ∈ out.1, r.x < gs ∧ r.z < gs)
  ∧ (NC gs g → x < gs → z < gs → ∀ r ∈ out.1, r.isMine = true → r.x = x ∧ r.z = z)

/-- The corresponding specification for the neighbour fold. -/
def FoldSpec (gs : Nat) (ps : List (Nat × Nat)) (g : GridF) (out : List RTile × GridF) : Prop :=
  (∀ a b, out.2 a b = revealMany g (coordsOf out.1) a b)
  ∧ (∀ r ∈ out.1, (g r.x r.z).isRevealed = false ∧ r.isMine = (g r.x r.z).isMine
      ∧ r.neighborMines = (g r.x r.z).neighborMines)
  ∧ (coordsOf out.1).Nodup
  ∧ ((∀ p ∈ ps, p.1 < gs ∧ p.2 < gs) → ∀ r ∈ out.1, r.x < gs ∧ r.z < gs)
  ∧ (NC gs g → (∀ p ∈ ps, p.1 < gs ∧ p.2 < gs) → (∀ p ∈ ps, (g p.1 p.2).isMine = false)
      → ∀ r ∈ out.1, r.isMine = false)

lemma foldSpec_of (gs : Nat) (rec : Nat → Nat → GridF → List RTile × GridF)
    (hrec : ∀ x z g, FloodSpec gs x z g (rec x z g)) :
    ∀ (ps : List (Nat × Nat)) (g : GridF), FoldSpec gs ps g (revealFoldFn rec ps g) := by
  intro ps
  induction ps with
  | nil =>
    intro g
    refine ⟨fun a b => (revealMany_nil g a b).symm, ?_, ?_, ?_, ?_⟩ <;> simp [revealFoldFn, coordsOf]
  | cons p ps ih =>
    intro g
    obtain ⟨a1, b1, c1, d1, e1⟩ := hrec p.1 p.2 g
    obtain ⟨a2, b2, c2, d2, e2⟩ := ih (rec p.1 p.2 g).2
    set o1 := rec p.1 p.2 g with ho1
    set o2 := revealFoldFn rec ps o1.2 with ho2
    have hout : revealFoldFn rec (p :: ps) g = (o1.1 ++ o2.1, o2.2) := by
      simp only [revealFoldFn]
    rw [hout]
    set C1 := coordsOf o1.1 with hC1
    set C2 := coordsOf o2.1 with hC2
    have hcoords : coordsOf (o1.1 ++ o2.1) = C1 ++ C2 := by
      simp [coordsOf, hC1, hC2]
    -- a record revealed by the tail fold was unrevealed after o1, hence its
    -- coordinates are fresh and its grid data comes from g
    have hl2g : ∀ r ∈ o2.1, ((r.x, r.z) : Nat × Nat) ∉ C1 ∧ (g r.x r.z).isRevealed = false
        ∧ r.isMine = (g r.x r.z).isMine ∧ r.neighborMines = (g r.x r.z).neighborMines := by
      intro r hr
      obtain ⟨hur, hm, hn⟩ := b2 r hr
      rw [a1 r.x r.z] at hur
      obtain ⟨hnotC1, hurg⟩ := revealMany_isRevealed_of hur
      have hgr : o1.2 r.x r.z = g r.x r.z := by
        rw [a1 r.x r.z, revealMany_not_mem hnotC1]
      rw [a1 r.x r.z, revealMany_not_mem hnotC1] at hm hn
      exact ⟨hnotC1, hurg, hm, hn⟩
    have hdisj : ∀ c ∈ C1, c ∉ C2 := by
      intro c hc1 hc2
      rcases List.mem_map.mp hc2 with ⟨r, hr, hrc⟩
      have := (hl2g r hr).1
      rw [hrc] at this
      exact this hc1
    refine ⟨?_, ?_, ?_, ?_, ?_⟩
    · intro a b
      rw [hcoords, ← revealMany_append, a2 a b]
      exact revealMany_point_congr C2 (a1 a b)
    · intro r hr
      rcases List.mem_append.mp hr with hr1 | hr2
      · exact b1 r hr1
      · exact (hl2g r hr2).2
    · rw [hcoords, List.nodup_append]
      exact ⟨c1, c2, fun c hc1 hc2 => hdisj c hc1 hc2⟩
    · intro hin r hr
      rcases List.mem_append.mp hr with hr1 | hr2
      · exact d1 (hin p (List.mem_cons_self p ps)).1 (hin p (List.mem_cons_self p ps)).2 r hr1
      · exact d2 (fun q hq => hin q (List.mem_cons_of_mem p hq)) r hr2
    · intro hnc hin hnm r hr
      rcases List.mem_append.mp hr with hr1 | hr2
      · by_contra hmine
        have hmt : r.isMine = true := by
          cases hmr : r.isMine
          · exact absurd hmr hmine
          · rfl
        have hp := hin p (List.mem_cons_self p ps)
        have hxz := e1 hnc hp.1 hp.2 r hr1 hmt
        have := (b1 r hr1).2.1
        rw [hxz.1, hxz.2] at this
        rw [hnm p (List.mem_cons_self p ps)] at this
        rw [this] at hmt
        cases hmt
      · have hnc1 : NC gs o1.2 := by
          refine NC_congr (fun a b => ?_) hnc
          rw [a1 a b]
          exact ⟨isMine_revealMany g C1 a b, neighborMines_revealMany g C1 a b⟩
        refine e2 hnc1 (fun q hq => hin q (List.mem_cons_of_mem p hq)) (fun q hq => ?_) r hr2
        rw [a1 q.1 q.2, isMine_revealMany]
        exact hnm q (List.mem_cons_of_mem p hq)

lemma floodSpec (gs : Nat) : ∀ fuel x z g, FloodSpec gs x z g (doRevealF gs fuel x z g) := by
  intro fuel
  induction fuel with
  | zero =>
    intro x z g
    refine ⟨fun a b => (revealMany_nil g a b).symm, ?_, ?_, ?_, ?_⟩ <;>
      simp [doRevealF, coordsOf]
  | succ fuel ih =>
    intro x z g
    by_cases hrev : (g x z).isRevealed = true
    · have hout : doRevealF gs (fuel + 1) x z g = ([], g) := by
        simp [doRevealF, hrev]
      rw [hout]
      refine ⟨fun a b => (revealMany_nil g a b).symm, ?_, ?_, ?_, ?_⟩ <;> simp [coordsOf]
    · have hrev' : (g x z).isRevealed = false := by
        cases h : (g x z).isRevealed
        · rfl
        · exact absurd h hrev
      by_cases hcond : (g x z).isMine = false ∧ (g x z).neighborMines = 0
      · -- zero tile: recurse into the neighbourhood
        have hout : doRevealF gs (fuel + 1) x z g =
            (({ x := x, z := z, isMine := (g x z).isMine,
                neighborMines := (g x z).neighborMines } : RTile) ::
              (revealFoldFn (doRevealF gs fuel) (neighbors gs x z) (setRevealed g x z)).1,
             (revealFoldFn (doRevealF gs fuel) (neighbors gs x z) (setRevealed g x z)).2) := by
          simp [doRevealF, hrev', hcond]
        obtain ⟨a2, b2, c2, d2, e2⟩ :=
          foldSpec_of gs (doRevealF gs fuel) (ih) (neighbors gs x z) (setRevealed g x z)
        rw [hout]
        set g1 := setRevealed g x z with hg1
        set o2 := revealFoldFn (doRevealF gs fuel) (neighbors gs x z) g1 with ho2
        set hd : RTile := { x := x, z := z, isMine := (g x z).isMine,
                            neighborMines := (g x z).neighborMines } with hhd
        have hg1pt : ∀ a b, g1 a b = revealMany g [(x, z)] a b := by
          intro a b
          simp only [hg1, setRevealed, revealMany, List.mem_singleton, Prod.mk.injEq]
        have hcoords : coordsOf (hd :: o2.1) = (x, z) :: coordsOf o2.1 := by
          simp [coordsOf, hhd]
        have hl2g : ∀ r ∈ o2.1, ¬(r.x = x ∧ r.z = z) ∧ (g r.x r.z).isRevealed = false
            ∧ r.isMine = (g r.x r.z).isMine ∧ r.neighborMines = (g r.x r.z).neighborMines := by
          intro r hr
          obtain ⟨hur, hm, hn⟩ := b2 r hr
          have hne : ¬(r.x = x ∧ r.z = z) := by
            intro hc
            rw [hc.1, hc.2] at hur
            simp [hg1, setRevealed] at hur
          have hpt : g1 r.x r.z = g r.x r.z := by
            simp only [hg1, setRevealed, if_neg hne]
          rw [hpt] at hur hm hn
          exact ⟨hne, hur, hm, hn⟩
        have hmemne : ((x, z) : Nat × Nat) ∉ coordsOf o2.1 := by
          intro hc
          rcases List.mem_map.mp hc with ⟨r, hr, hrc⟩
          have := (hl2g r hr).1
          exact this ⟨congrArg Prod.fst hrc, congrArg Prod.snd hrc⟩
        refine ⟨?_, ?_, ?_, ?_, ?_⟩
        · intro a b
          rw [hcoords]
          show o2.2 a b = _
          rw [a2 a b, ← List.singleton_append, ← revealMany_append]
          exact revealMany_point_congr _ (hg1pt a b)
        · intro r hr
          rcases List.mem_cons.mp hr with hr1 | hr2
          · subst hr1
            exact ⟨hrev', rfl, rfl⟩
          · exact (hl2g r hr2).2
        · rw [hcoords]
          exact List.nodup_cons.mpr ⟨hmemne, c2⟩
        · intro hx hz r hr
          rcases List.mem_cons.mp hr with hr1 | hr2
          · subst hr1; exact ⟨hx, hz⟩
          · exact d2 neighbors_inBounds r hr2
        · intro hnc hx hz r hr
          rcases List.mem_cons.mp hr with hr1 | hr2
          · intro _; subst hr1; exact ⟨rfl, rfl⟩
          · intro hmine
            exfalso
            have hnc1 : NC gs g1 := by
              refine NC_congr (fun a b => ?_) hnc
              rw [hg1pt a b]
              exact ⟨isMine_revealMany g _ a b, neighborMines_revealMany g _ a b⟩
            have hnb : ∀ p ∈ neighbors gs x z, (g1 p.1 p.2).isMine = false := by
              intro p hp
              rw [hg1pt p.1 p.2, isMine_revealMany]
              exact zero_neighbors hnc hx hz hcond.1 hcond.2 p hp
            have := e2 hnc1 neighbors_inBounds hnb r hr2
            rw [this] at hmine
            cases hmine
      · -- mine or numbered tile: reveal just the clicked tile
        set hd : RTile := { x := x, z := z, isMine := (g x z).isMine, neighborMines := (g x z).neighborMines } with hhd
        have hout : doRevealF gs (fuel + 1) x z g = ([hd], setRevealed g x z) := by
          simp [doRevealF, hrev', hcond, hhd]
        rw [hout]
        have hcoords : coordsOf [hd] = [(x, z)] := by
          simp [coordsOf, hhd]
        refine ⟨?_, ?_, ?_, ?_, ?_⟩
        · intro a b
          rw [hcoords]
          show setRevealed g x z a b = _
          simp only [setRevealed, revealMany, List.mem_singleton, Prod.mk.injEq]
        · intro r hr
          rcases List.mem_singleton.mp hr with rfl
          exact ⟨hrev', rfl, rfl⟩
        · rw [hcoords]; exact List.nodup_singleton _
        · intro hx hz r hr
          rcases List.mem_singleton.mp hr with rfl
          exact ⟨hx, hz⟩
        · intro _ _ _ r hr _
          rcases List.mem_singleton.mp hr with rfl
          exact ⟨rfl, rfl⟩

/-! ### Flood corollaries -/

lemma coords_inBounds {gs x z : Nat} {g : GridF} {fuel : Nat}
    (hx : x < gs) (hz : z < gs) :
    ∀ p ∈ coordsOf (doRevealF gs fuel x z g).1, p.1 < gs ∧ p.2 < gs := by
  intro p hp
  rcases List.mem_map.mp hp with ⟨r, hr, hrc⟩
  have := (floodSpec gs fuel x z g).2.2.2.1 hx hz r hr
  rw [← hrc]
  exact this

lemma coords_unrevealed {gs x z : Nat} {g : GridF} {fuel : Nat} :
    ∀ p ∈ coordsOf (doRevealF gs fuel x z g).1, (g p.1 p.2).isRevealed = false := by
  intro p hp
  rcases List.mem_map.mp hp with ⟨r, hr, hrc⟩
  have := ((floodSpec gs fuel x z g).2.1 r hr).1
  rw [← hrc]
  exact this

/-- Revealing never changes `isMine` or `neighborMines`. -/
lemma doRevealF_preserves {gs fuel x z : Nat} {g : GridF} :
    ∀ a b, ((doRevealF gs fuel x z g).2 a b).isMine = (g a b).isMine
      ∧ ((doRevealF gs fuel x z g).2 a b).neighborMines = (g a b).neighborMines := by
  intro a b
  rw [(floodSpec gs fuel x z g).1 a b]
  exact ⟨isMine_revealMany g _ a b, neighborMines_revealMany g _ a b⟩

/-- Exact accounting of unrevealed cells across one flood. -/
lemma unrevCnt_doRevealF {gs fuel x z : Nat} {g : GridF}
    (hx : x < gs) (hz : z < gs) :
    unrevCnt gs (doRevealF gs fuel x z g).2 + (doRevealF gs fuel x z g).1.length
      = unrevCnt gs g := by
  have hpt := (floodSpec gs fuel x z g).1
  have hcong : unrevCnt gs (doRevealF gs fuel x z g).2
      = unrevCnt gs (revealMany g (coordsOf (doRevealF gs fuel x z g).1)) := by
    exact gridCount_congr fun a b _ _ => by rw [hpt a b]
  rw [hcong]
  have hlen : (coordsOf (doRevealF gs fuel x z g).1).length
      = (doRevealF gs fuel x z g).1.length := List.length_map _ _
  rw [← hlen]
  exact unrevCnt_revealMany (floodSpec gs fuel x z g).2.2.1
    (coords_inBounds hx hz) coords_unrevealed

/-- Exact accounting of revealed cells across one flood. -/
lemma revCnt_doRevealF {gs fuel x z : Nat} {g : GridF}
    (hx : x < gs) (hz : z < gs) :
    revCnt gs (doRevealF gs fuel x z g).2
      = revCnt gs g + (doRevealF gs fuel x z g).1.length := by
  have hpt := (floodSpec gs fuel x z g).1
  have hcong : revCnt gs (doRevealF gs fuel x z g).2
      = revCnt gs (revealMany g (coordsOf (doRevealF gs fuel x z g).1)) := by
    exact gridCount_congr fun a b _ _ => by rw [hpt a b]
  rw [hcong]
  have hlen : (coordsOf (doRevealF gs fuel x z g).1).length
      = (doRevealF gs fuel x z g).1.length := List.length_map _ _
  rw [← hlen]
  exact revCnt_revealMany (floodSpec gs fuel x z g).2.2.1
    (coords_inBounds hx hz) coords_unrevealed

lemma mineCnt_doRevealF {gs fuel x z : Nat} {g : GridF} :
    mineCnt gs (doRevealF gs fuel x z g).2 = mineCnt gs g :=
  gridCount_congr fun a b _ _ => (doRevealF_preserves a b).1

/-! ### Fuel stability: enough fuel reproduces the unbounded JS recursion -/

lemma revealFoldFn_fuel_congr (gs f : Nat)
    (hstep : ∀ x z g, x < gs → z < gs → unrevCnt gs g < f →
      doRevealF gs f x z g = doRevealF gs (f + 1) x z g) :
    ∀ (ps : List (Nat × Nat)) (g : GridF), (∀ p ∈ ps, p.1 < gs ∧ p.2 < gs) →
      unrevCnt gs g < f →
      revealFoldFn (doRevealF gs f) ps g = revealFoldFn (doRevealF gs (f + 1)) ps g := by
  intro ps
  induction ps with
  | nil => intro g _ _; rfl
  | cons p ps ih =>
    intro g hin hu
    have hp := hin p (List.mem_cons_self p ps)
    have h1 : doRevealF gs f p.1 p.2 g = doRevealF gs (f + 1) p.1 p.2 g :=
      hstep p.1 p.2 g hp.1 hp.2 hu
    have hu2 : unrevCnt gs (doRevealF gs f p.1 p.2 g).2 < f := by
      have := @unrevCnt_doRevealF _ f _ _ g hp.1 hp.2
      omega
    have h2 := ih (doRevealF gs f p.1 p.2 g).2
      (fun q hq => hin q (List.mem_cons_of_mem p hq)) hu2
    show ((doRevealF gs f p.1 p.2 g).1
            ++ (revealFoldFn (doRevealF gs f) ps (doRevealF gs f p.1 p.2 g).2).1,
          (revealFoldFn (doRevealF gs f) ps (doRevealF gs f p.1 p.2 g).2).2)
        = ((doRevealF gs (f + 1) p.1 p.2 g).1
            ++ (revealFoldFn (doRevealF gs (f + 1)) ps (doRevealF gs (f + 1) p.1 p.2 g).2).1,
          (revealFoldFn (doRevealF gs (f + 1)) ps (doRevealF gs (f + 1) p.1 p.2 g).2).2)
    rw [← h1, ← h2]

lemma doRevealF_fuel_succ (gs : Nat) :
    ∀ fuel x z g, x < gs → z < gs → unrevCnt gs g < fuel →
      doRevealF gs fuel x z g = doRevealF gs (fuel + 1) x z g := by
  intro fuel
  induction fuel with
  | zero => intro x z g _ _ hu; omega
  | succ f ih =>
    intro x z g hx hz hu
    by_cases hrev : (g x z).isRevealed = true
    · simp [doRevealF, hrev]
    · have hrev' : (g x z).isRevealed = false := by
        cases h : (g x z).isRevealed
        · rfl
        · exact absurd h hrev
      have hu1 : unrevCnt gs (setRevealed g x z) < f := by
        unfold unrevCnt at hu ⊢
        have hpos : 1 ≤ gridCount gs (fun t => !t.isRevealed) g := by
          refine gridCount_pos hx hz ?_
          rw [hrev']; rfl
        have hpoint := @gridCount_point gs _ _ (fun t => !t.isRevealed)
          g (setRevealed g x z) hx hz
          (fun a b hab => by simp only [setRevealed, if_neg hab])
        have hnew : (setRevealed g x z x z).isRevealed = true := by
          simp [setRevealed]
        dsimp only at hpoint
        rw [hrev', hnew] at hpoint
        simp at hpoint
        omega
      have hhead : ∀ ff : Nat, doRevealF gs (ff + 1) x z g =
          (if (g x z).isMine = false ∧ (g x z).neighborMines = 0 then
            (({ x := x, z := z, isMine := (g x z).isMine,
                neighborMines := (g x z).neighborMines } : RTile) ::
              (revealFoldFn (doRevealF gs ff) (neighbors gs x z) (setRevealed g x z)).1,
             (revealFoldFn (doRevealF gs ff) (neighbors gs x z) (setRevealed g x z)).2)
          else
            ([({ x := x, z := z, isMine := (g x z).isMine,
                 neighborMines := (g x z).neighborMines } : RTile)], setRevealed g x z)) := by
        intro ff
        by_cases hcond : (g x z).isMine = false ∧ (g x z).neighborMines = 0 <;>
          simp [doRevealF, hrev', hcond]
      by_cases hcond : (g x z).isMine = false ∧ (g x z).neighborMines = 0
      · have hfold := revealFoldFn_fuel_congr gs f
          (fun x' z' g' hx' hz' hu' => ih x' z' g' hx' hz' hu')
          (neighbors gs x z) (setRevealed g x z) neighbors_inBounds hu1
        rw [hhead f, hhead (f + 1), if_pos hcond, if_pos hcond, hfold]
      · rw [hhead f, hhead (f + 1), if_neg hcond, if_neg hcond]

lemma doRevealF_fuel_stable (gs : Nat) {x z : Nat} {g : GridF}
    (hx : x < gs) (hz : z < gs) :
    ∀ f₁ f₂, unrevCnt gs g < f₁ → unrevCnt gs g < f₂ →
      doRevealF gs f₁ x z g = doRevealF gs f₂ x z g := by
  have aux : ∀ k f, unrevCnt gs g < f →
      doRevealF gs f x z g = doRevealF gs (f + k) x z g := by
    intro k
    induction k with
    | zero => intro f _; rfl
    | succ k ih =>
      intro f hf
      rw [ih f hf]
      have : unrevCnt gs g < f + k := by omega
      rw [doRevealF_fuel_succ gs (f + k) x z g hx hz this]
      rfl
  intro f₁ f₂ h1 h2
  rcases Nat.le_total f₁ f₂ with h | h
  · obtain ⟨k, rfl⟩ := Nat.le.dest h
    exact aux k f₁ h1
  · obtain ⟨k, rfl⟩ := Nat.le.dest h
    exact (aux k f₂ h2).symm

/-! ### `placeMines` lemmas -/

lemma setMine_point {g : GridF} {x z : Nat} :
    ∀ a b, ¬(a = x ∧ b = z) → setMine g x z a b = g a b := by
  intro a b hab
  simp only [setMine, if_neg hab]

lemma mineLoop_succ (gs mc sx sz : Nat) (rand : Nat → Nat × Nat) (l i placed : Nat)
    (g : GridF) :
    mineLoop gs mc sx sz rand (l + 1) i placed g
    = if mc ≤ placed then (g, placed)
      else
        if inSafeZone gs sx sz (rand i).1 (rand i).2 || (g (rand i).1 (rand i).2).isMine
        then mineLoop gs mc sx sz rand l (i + 1) placed g
        else mineLoop gs mc sx sz rand l (i + 1) (placed + 1)
          (setMine g (rand i).1 (rand i).2) := rfl

lemma mineLoop_safeZone (gs mc sx sz : Nat) (rand : Nat → Nat × Nat) :
    ∀ left i placed g a b, inSafeZone gs sx sz a b = true →
      ((mineLoop gs mc sx sz rand left i placed g).1 a b).isMine = (g a b).isMine := by
  intro left
  induction left with
  | zero => intro i placed g a b _; rfl
  | succ l ih =>
    intro i placed g a b hsafe
    rw [mineLoop_succ]
    by_cases hstop : mc ≤ placed
    · rw [if_pos hstop]
    · rw [if_neg hstop]
      by_cases hc : (inSafeZone gs sx sz (rand i).1 (rand i).2
          || (g (rand i).1 (rand i).2).isMine) = true
      · rw [if_pos hc]
        exact ih (i + 1) placed g a b hsafe
      · rw [if_neg hc]
        rw [ih (i + 1) (placed + 1) _ a b hsafe]
        simp only [Bool.or_eq_true, not_or, Bool.not_eq_true] at hc
        have hne : ¬(a = (rand i).1 ∧ b = (rand i).2) := by
          intro hab
          have h1 := hc.1
          rw [← hab.1, ← hab.2, hsafe] at h1
          simp at h1
        rw [setMine_point a b hne]

lemma mineLoop_preserves (gs mc sx sz : Nat) (rand : Nat → Nat × Nat) :
    ∀ left i placed g a b,
      ((mineLoop gs mc sx sz rand left i placed g).1 a b).isRevealed = (g a b).isRevealed
      ∧ ((mineLoop gs mc sx sz rand left i placed g).1 a b).neighborMines
          = (g a b).neighborMines := by
  intro left
  induction left with
  | zero => intro i placed g a b; exact ⟨rfl, rfl⟩
  | succ l ih =>
    intro i placed g a b
    rw [mineLoop_succ]
    by_cases hstop : mc ≤ placed
    · rw [if_pos hstop]; exact ⟨rfl, rfl⟩
    · rw [if_neg hstop]
      by_cases hc : (inSafeZone gs sx sz (rand i).1 (rand i).2
          || (g (rand i).1 (rand i).2).isMine) = true
      · rw [if_pos hc]
        exact ih (i + 1) placed g a b
      · rw [if_neg hc]
        obtain ⟨h1, h2⟩ := ih (i + 1) (placed + 1) (setMine g (rand i).1 (rand i).2) a b
        rw [h1, h2]
        constructor
        · show (setMine g (rand i).1 (rand i).2 a b).isRevealed = _
          unfold setMine; split <;> rfl
        · show (setMine g (rand i).1 (rand i).2 a b).neighborMines = _
          unfold setMine; split <;> rfl

lemma mineCnt_setMine_le {gs : Nat} (g : GridF) (x z : Nat) :
    mineCnt gs (setMine g x z) ≤ mineCnt gs g + 1 := by
  by_cases hin : x < gs ∧ z < gs
  · have hpoint := @gridCount_point gs _ _ (fun t => t.isMine)
      g (setMine g x z) hin.1 hin.2 setMine_point
    dsimp only at hpoint
    unfold mineCnt
    have hb1 : (if (g x z).isMine = true then (1 : Nat) else 0) ≤ 1 := by
      split <;> omega
    have hb2 : (if (setMine g x z x z).isMine = true then (1 : Nat) else 0) ≤ 1 := by
      split <;> omega
    omega
  · have : mineCnt gs (setMine g x z) = mineCnt gs g := by
      refine gridCount_congr fun a b ha hb => ?_
      have : ¬(a = x ∧ b = z) := by
        intro hc
        exact hin ⟨hc.1 ▸ ha, hc.2 ▸ hb⟩
      rw [setMine_point a b this]
    omega

lemma mineLoop_count (gs mc sx sz : Nat) (rand : Nat → Nat × Nat) :
    ∀ left i placed g, placed ≤ mc →
      (mineLoop gs mc sx sz rand left i placed g).2 ≤ mc
      ∧ mineCnt gs (mineLoop gs mc sx sz rand left i placed g).1 + placed
          ≤ mineCnt gs g + (mineLoop gs mc sx sz rand left i placed g).2 := by
  intro left
  induction left with
  | zero => intro i placed g hp; exact ⟨hp, Nat.le_refl _⟩
  | succ l ih =>
    intro i placed g hp
    rw [mineLoop_succ]
    by_cases hstop : mc ≤ placed
    · rw [if_pos hstop]
      exact ⟨hp, Nat.le_refl _⟩
    · rw [if_neg hstop]
      by_cases hc : (inSafeZone gs sx sz (rand i).1 (rand i).2
          || (g (rand i).1 (rand i).2).isMine) = true
      · rw [if_pos hc]
        exact ih (i + 1) placed g hp
      · rw [if_neg hc]
        have hp1 : placed + 1 ≤ mc := by omega
        obtain ⟨ha, hb⟩ := ih (i + 1) (placed + 1) (setMine g (rand i).1 (rand i).2) hp1
        have hset := @mineCnt_setMine_le gs g (rand i).1 (rand i).2
        exact ⟨ha, by omega⟩

lemma placeMines_gridSize (rand : Nat → Nat × Nat) (sx sz : Nat) (e : Engine) :
    (placeMines rand sx sz e).gridSize = e.gridSize := rfl

lemma placeMines_grid_eq (rand : Nat → Nat × Nat) (sx sz : Nat) (e : Engine) :
    (placeMines rand sx sz e).grid = fun a b =>
      if ((mineLoop e.gridSize e.minesCount sx sz rand
            (e.gridSize * e.gridSize * 10) 0 0 e.grid).1 a b).isMine
      then (mineLoop e.gridSize e.minesCount sx sz rand
            (e.gridSize * e.gridSize * 10) 0 0 e.grid).1 a b
      else { (mineLoop e.gridSize e.minesCount sx sz rand
              (e.gridSize * e.gridSize * 10) 0 0 e.grid).1 a b with
             neighborMines := countNeighborMines (mineLoop e.gridSize e.minesCount sx sz rand
              (e.gridSize * e.gridSize * 10) 0 0 e.grid).1 e.gridSize a b } := rfl

lemma placeMines_isMine (rand : Nat → Nat × Nat) (sx sz : Nat) (e : Engine) :
    ∀ a b, ((placeMines rand sx sz e).grid a b).isMine
      = ((mineLoop e.gridSize e.minesCount sx sz rand
          (e.gridSize * e.gridSize * 10) 0 0 e.grid).1 a b).isMine := by
  intro a b
  rw [placeMines_grid_eq]
  dsimp only
  split <;> rfl

lemma placeMines_safe (rand : Nat → Nat × Nat) (sx sz : Nat) (e : Engine)
    (hfree : ∀ a b, (e.grid a b).isMine = false) :
    ∀ a b, inSafeZone e.gridSize sx sz a b = true →
      ((placeMines rand sx sz e).grid a b).isMine = false := by
  intro a b hsafe
  rw [placeMines_isMine,
      mineLoop_safeZone e.gridSize e.minesCount sx sz rand _ 0 0 e.grid a b hsafe]
  exact hfree a b

lemma placeMines_isRevealed (rand : Nat → Nat × Nat) (sx sz : Nat) (e : Engine) :
    ∀ a b, ((placeMines rand sx sz e).grid a b).isRevealed = (e.grid a b).isRevealed := by
  intro a b
  have hmid : ((placeMines rand sx sz e).grid a b).isRevealed
      = ((mineLoop e.gridSize e.minesCount sx sz rand
          (e.gridSize * e.gridSize * 10) 0 0 e.grid).1 a b).isRevealed := by
    rw [placeMines_grid_eq]
    dsimp only
    split <;> rfl
  rw [hmid]
  exact (mineLoop_preserves e.gridSize e.minesCount sx sz rand _ 0 0 e.grid a b).1

lemma placeMines_NC (rand : Nat → Nat × Nat) (sx sz : Nat) (e : Engine) :
    NC e.gridSize (placeMines rand sx sz e).grid := by
  intro x _ z _ hm
  set gt := (mineLoop e.gridSize e.minesCount sx sz rand
    (e.gridSize * e.gridSize * 10) 0 0 e.grid).1 with hgt
  have hmt : (gt x z).isMine = false := by
    rw [← placeMines_isMine rand sx sz e x z]
    exact hm
  have hval : (placeMines rand sx sz e).grid x z
      = { gt x z with neighborMines := countNeighborMines gt e.gridSize x z } := by
    rw [placeMines_grid_eq]
    dsimp only
    rw [← hgt, hmt]
    simp
  rw [hval]
  show countNeighborMines gt e.gridSize x z = _
  refine (countNeighborMines_congr fun a b => ?_).symm
  exact placeMines_isMine rand sx sz e a b

lemma placeMines_mineCnt (rand : Nat → Nat × Nat) (sx sz : Nat) (e : Engine)
    (hfree : ∀ a b, (e.grid a b).isMine = false) :
    mineCnt e.gridSize (placeMines rand sx sz e).grid ≤ e.minesCount := by
  have h0 : mineCnt e.gridSize e.grid = 0 :=
    gridCount_eq_zero fun a b _ _ => hfree a b
  obtain ⟨ha, hb⟩ := mineLoop_count e.gridSize e.minesCount sx sz rand
    (e.gridSize * e.gridSize * 10) 0 0 e.grid (Nat.zero_le _)
  have hcongr : mineCnt e.gridSize (placeMines rand sx sz e).grid
      = mineCnt e.gridSize (mineLoop e.gridSize e.minesCount sx sz rand
          (e.gridSize * e.gridSize * 10) 0 0 e.grid).1 :=
    gridCount_congr fun a b _ _ => placeMines_isMine rand sx sz e a b
  omega

/-! ### The engine invariant -/

/-- The inductive invariant of reachable engine states. -/
structure Inv (e : Engine) : Prop where
  total_eq : e.totalRevealed = revCnt e.gridSize e.grid
  fresh : e.minesPlaced = false →
    ∀ a b, (e.grid a b).isMine = false ∧ (e.grid a b).isRevealed = false
  nc : e.minesPlaced = true → NC e.gridSize e.grid
  mines_le : mineCnt e.gridSize e.grid ≤ e.minesCount
  playing_lt : e.gameStatus = .playing → e.minesPlaced = true →
    (e.totalRevealed : Int) < (e.gridSize : Int) * (e.gridSize : Int) - (e.minesCount : Int)
  no_rev_mine : e.gameStatus = .playing → ∀ a b, a < e.gridSize → b < e.gridSize →
    (e.grid a b).isRevealed = true → (e.grid a b).isMine = false
  bound : e.totalRevealed + mineCnt e.gridSize e.grid ≤ e.gridSize * e.gridSize

lemma inv_generateGrid (e : Engine) : Inv (generateGrid e) := by
  have hrev0 : revCnt (generateGrid e).gridSize (generateGrid e).grid = 0 :=
    gridCount_eq_zero fun _ _ _ _ => rfl
  have hmine0 : mineCnt (generateGrid e).gridSize (generateGrid e).grid = 0 :=
    gridCount_eq_zero fun _ _ _ _ => rfl
  refine ⟨?_, ?_, ?_, ?_, ?_, ?_, ?_⟩
  · rw [hrev0]; rfl
  · intro _ a b; exact ⟨rfl, rfl⟩
  · intro h; cases h
  · rw [hmine0]; exact Nat.zero_le _
  · intro _ h; cases h
  · intro _ a b _ _ h; cases h
  · rw [hmine0]
    show (0 : Nat) + 0 ≤ _
    exact Nat.zero_le _

lemma inv_passTurn (p : Player) (e : Engine) (hinv : Inv e) :
    Inv (passTurn p e).2 := by
  unfold passTurn
  split_ifs with h1 h2 h3
  · exact hinv
  · exact hinv
  · exact hinv
  · refine ⟨hinv.total_eq, hinv.fresh, hinv.nc, hinv.mines_le, ?_, ?_, hinv.bound⟩
    · intro hst hmp
      exact hinv.playing_lt (by simpa using hst) hmp
    · intro hst
      exact hinv.no_rev_mine (by simpa using hst)

lemma inv_handleTimeout (e : Engine) (hinv : Inv e) :
    Inv (handleTimeout e).2 := by
  unfold handleTimeout
  split_ifs with h1
  · refine ⟨hinv.total_eq, hinv.fresh, hinv.nc, hinv.mines_le, ?_, ?_, hinv.bound⟩
    · intro hst; cases hst
    · intro hst; cases hst
  · refine ⟨hinv.total_eq, hinv.fresh, hinv.nc, hinv.mines_le, ?_, ?_, hinv.bound⟩
    · intro hst hmp
      exact hinv.playing_lt (by simpa using hst) hmp
    · intro hst
      exact hinv.no_rev_mine (by simpa using hst)

/-! ### `revealTile` helper lemmas -/

lemma e1of_gridSize (rand : Nat → Nat × Nat) (xn zn : Nat) (e : Engine) :
    (e1of rand xn zn e).gridSize = e.gridSize := by
  unfold e1of; split <;> rfl

lemma e1of_minesCount (rand : Nat → Nat × Nat) (xn zn : Nat) (e : Engine) :
    (e1of rand xn zn e).minesCount = e.minesCount := by
  unfold e1of; split <;> rfl

lemma e1of_turnTimeLimit (rand : Nat → Nat × Nat) (xn zn : Nat) (e : Engine) :
    (e1of rand xn zn e).turnTimeLimit = e.turnTimeLimit := by
  unfold e1of; split <;> rfl

lemma e1of_totalRevealed (rand : Nat → Nat × Nat) (xn zn : Nat) (e : Engine) :
    (e1of rand xn zn e).totalRevealed = e.totalRevealed := by
  unfold e1of; split <;> rfl

lemma e1of_revealsThisTurn (rand : Nat → Nat × Nat) (xn zn : Nat) (e : Engine) :
    (e1of rand xn zn e).revealsThisTurn = e.revealsThisTurn := by
  unfold e1of; split <;> rfl

lemma e1of_gameStatus (rand : Nat → Nat × Nat) (xn zn : Nat) (e : Engine) :
    (e1of rand xn zn e).gameStatus = e.gameStatus := by
  unfold e1of; split <;> rfl

lemma e1of_isFirstMove (rand : Nat → Nat × Nat) (xn zn : Nat) (e : Engine) :
    (e1of rand xn zn e).isFirstMove = e.isFirstMove := by
  unfold e1of; split <;> rfl

lemma e1of_scores (rand : Nat → Nat × Nat) (xn zn : Nat) (e : Engine) :
    (e1of rand xn zn e).scores = e.scores := by
  unfold e1of; split <;> rfl

lemma e1of_lastPassedBy (rand : Nat → Nat × Nat) (xn zn : Nat) (e : Engine) :
    (e1of rand xn zn e).lastPassedBy = e.lastPassedBy := by
  unfold e1of; split <;> rfl

lemma e1of_timeRemaining (rand : Nat → Nat × Nat) (xn zn : Nat) (e : Engine) :
    (e1of rand xn zn e).timeRemaining = e.timeRemaining := by
  unfold e1of; split <;> rfl

lemma e1of_minesPlaced (rand : Nat → Nat × Nat) (xn zn : Nat) (e : Engine) :
    (e1of rand xn zn e).minesPlaced = true := by
  unfold e1of
  split
  · assumption
  · rfl

lemma e1of_isRevealed (rand : Nat → Nat × Nat) (xn zn : Nat) (e : Engine) :
    ∀ a b, ((e1of rand xn zn e).grid a b).isRevealed = (e.grid a b).isRevealed := by
  intro a b
  unfold e1of
  split
  · rfl
  · exact placeMines_isRevealed rand xn zn e a b

lemma e1of_NC (rand : Nat → Nat × Nat) (xn zn : Nat) (e : Engine) (hinv : Inv e) :
    NC e.gridSize (e1of rand xn zn e).grid := by
  unfold e1of
  split
  · exact hinv.nc (by assumption)
  · exact placeMines_NC rand xn zn e

lemma e1of_mineCnt (rand : Nat → Nat × Nat) (xn zn : Nat) (e : Engine) (hinv : Inv e) :
    mineCnt e.gridSize (e1of rand xn zn e).grid ≤ e.minesCount := by
  unfold e1of
  split
  · exact hinv.mines_le
  · rename_i hmp
    have hfree := hinv.fresh (by
      cases h : e.minesPlaced
      · rfl
      · exact absurd h hmp)
    exact placeMines_mineCnt rand xn zn e fun a b => (hfree a b).1

lemma e1of_revCnt (rand : Nat → Nat × Nat) (xn zn : Nat) (e : Engine) :
    revCnt e.gridSize (e1of rand xn zn e).grid = revCnt e.gridSize e.grid :=
  gridCount_congr fun a b _ _ => by rw [e1of_isRevealed]

lemma e1of_noRevMine (rand : Nat → Nat × Nat) (xn zn : Nat) (e : Engine) (hinv : Inv e)
    (hst : e.gameStatus = .playing) :
    ∀ a b, a < e.gridSize → b < e.gridSize →
      ((e1of rand xn zn e).grid a b).isRevealed = true →
      ((e1of rand xn zn e).grid a b).isMine = false := by
  intro a b ha hb hr
  unfold e1of at hr ⊢
  split at hr
  · rw [if_pos (by assumption)]
    exact hinv.no_rev_mine hst a b ha hb hr
  · rename_i hmp
    have hfree := hinv.fresh (by
      cases h : e.minesPlaced
      · rfl
      · exact absurd h hmp)
    rw [placeMines_isRevealed rand xn zn e a b] at hr
    rw [(hfree a b).2] at hr
    cases hr

/-- The engine state after the flood, before the terminal checks
(`e4` in `revealApply`), in closed form. -/
def e4core (rand : Nat → Nat × Nat) (xn zn : Nat) (p : Player) (e : Engine) : Engine :=
  { e1of rand xn zn e with
    grid := (doReveal (e1of rand xn zn e).gridSize xn zn (e1of rand xn zn e).grid).2
    revealsThisTurn := (e1of rand xn zn e).revealsThisTurn
      + (doReveal (e1of rand xn zn e).gridSize xn zn (e1of rand xn zn e).grid).1.length
    totalRevealed := (e1of rand xn zn e).totalRevealed
      + (doReveal (e1of rand xn zn e).gridSize xn zn (e1of rand xn zn e).grid).1.length
    isFirstMove := false
    scores := if e.isFirstMove then (e1of rand xn zn e).scores
      else addScore (e1of rand xn zn e).scores p
        ((doReveal (e1of rand xn zn e).gridSize xn zn (e1of rand xn zn e).grid).1.length * 10)
    timeRemaining := if e.isFirstMove then some (e1of rand xn zn e).turnTimeLimit
      else (e1of rand xn zn e).timeRemaining }

/-- The closed form of the engine produced by `revealApply`. -/
def postEngine (rand : Nat → Nat × Nat) (xn zn : Nat) (p : Player) (e : Engine) : Engine :=
  if ((doReveal (e1of rand xn zn e).gridSize xn zn (e1of rand xn zn e).grid).2 xn zn).isMine then
    { e4core rand xn zn p e with gameStatus := .finished, winner := some (other p) }
  else if winCond (e4core rand xn zn p e) then
    { e4core rand xn zn p e with
      gameStatus := .finished
      winner := some ((e4core rand xn zn p e).lastPassedBy.getD p) }
  else e4core rand xn zn p e

lemma revealApply_state (rand : Nat → Nat × Nat) (xn zn : Nat) (p : Player) (e : Engine) :
    (revealApply rand xn zn p e).2 = postEngine rand xn zn p e := by
  unfold revealApply postEngine e4core
  by_cases hf : e.isFirstMove = true <;>
    simp only [hf, e1of_isFirstMove, if_true, if_false, Bool.false_eq_true] <;>
    split_ifs <;> rfl

lemma floodSpec_doReveal (gs x z : Nat) (g : GridF) :
    FloodSpec gs x z g (doReveal gs x z g) := by
  unfold doReveal
  exact floodSpec gs (gs * gs + 1) x z g

lemma revCnt_doReveal {gs x z : Nat} {g : GridF} (hx : x < gs) (hz : z < gs) :
    revCnt gs (doReveal gs x z g).2 = revCnt gs g + (doReveal gs x z g).1.length := by
  unfold doReveal
  exact revCnt_doRevealF hx hz

lemma mineCnt_doReveal {gs x z : Nat} {g : GridF} :
    mineCnt gs (doReveal gs x z g).2 = mineCnt gs g := by
  unfold doReveal
  exact mineCnt_doRevealF

lemma doReveal_preserves {gs x z : Nat} {g : GridF} :
    ∀ a b, ((doReveal gs x z g).2 a b).isMine = (g a b).isMine
      ∧ ((doReveal gs x z g).2 a b).neighborMines = (g a b).neighborMines := by
  unfold doReveal
  exact doRevealF_preserves

lemma doReveal_clicked_mine {gs x z : Nat} {g : GridF}
    (hur : (g x z).isRevealed = false) (hm : (g x z).isMine = true) :
    doReveal gs x z g
      = ([{ x := x, z := z, isMine := (g x z).isMine,
            neighborMines := (g x z).neighborMines }], setRevealed g x z) := by
  unfold doReveal
  simp [doRevealF, hur, hm]

/-- All tiles revealed by a click on a non-mine tile are non-mines
(on a neighbour-consistent grid). -/
lemma doReveal_no_mine {gs x z : Nat} {g : GridF} (hnc : NC gs g)
    (hx : x < gs) (hz : z < gs) (hm : (g x z).isMine = false) :
    ∀ r ∈ (doReveal gs x z g).1, r.isMine = false := by
  intro r hr
  obtain ⟨_, hfields, _, _, hmines⟩ := floodSpec_doReveal gs x z g
  cases hrm : r.isMine
  · rfl
  · exfalso
    obtain ⟨hxz1, hxz2⟩ := hmines hnc hx hz r hr hrm
    have := (hfields r hr).2.1
    rw [hxz1, hxz2, hm] at this
    rw [this] at hrm
    cases hrm

/-- Any tile revealed on the post-flood grid of a non-mine click is a
non-mine (given the pre-state had no revealed mines). -/
lemma doReveal_no_rev_mine {gs x z : Nat} {g : GridF} (hnc : NC gs g)
    (hx : x < gs) (hz : z < gs) (hm : (g x z).isMine = false)
    (hold : ∀ a b, a < gs → b < gs → (g a b).isRevealed = true → (g a b).isMine = false) :
    ∀ a b, a < gs → b < gs → ((doReveal gs x z g).2 a b).isRevealed = true →
      ((doReveal gs x z g).2 a b).isMine = false := by
  intro a b ha hb hr
  obtain ⟨hpt, hfields, _, _, _⟩ := floodSpec_doReveal gs x z g
  rw [(doReveal_preserves a b).1]
  rw [hpt a b] at hr
  by_cases hmem : ((a, b) : Nat × Nat) ∈ coordsOf (doReveal gs x z g).1
  · rcases List.mem_map.mp hmem with ⟨r, hrmem, hrc⟩
    have hrm := doReveal_no_mine hnc hx hz hm r hrmem
    have := (hfields r hrmem).2.1
    rw [hrm] at this
    have hra : r.x = a := congrArg Prod.fst hrc
    have hrb : r.z = b := congrArg Prod.snd hrc
    rw [hra, hrb] at this
    exact this.symm
  · rw [revealMany_not_mem hmem] at hr
    exact hold a b ha hb hr

lemma inv_revealApply (rand : Nat → Nat × Nat) (xn zn : Nat) (p : Player) (e : Engine)
    (hst : e.gameStatus = .playing)
    (hx : xn < e.gridSize) (hz : zn < e.gridSize)
    (hur : (e.grid xn zn).isRevealed = false)
    (hinv : Inv e) : Inv (revealApply rand xn zn p e).2 := by
  rw [revealApply_state]
  unfold postEngine
  set e1 := e1of rand xn zn e with he1
  have hgs : e1.gridSize = e.gridSize := by rw [he1]; exact e1of_gridSize rand xn zn e
  have hmc : e1.minesCount = e.minesCount := by rw [he1]; exact e1of_minesCount rand xn zn e
  have htr : e1.totalRevealed = e.totalRevealed := by
    rw [he1]; exact e1of_totalRevealed rand xn zn e
  have hstat1 : e1.gameStatus = e.gameStatus := by rw [he1]; exact e1of_gameStatus rand xn zn e
  have hmp1 : e1.minesPlaced = true := by rw [he1]; exact e1of_minesPlaced rand xn zn e
  have hx1 : xn < e1.gridSize := by rw [hgs]; exact hx
  have hz1 : zn < e1.gridSize := by rw [hgs]; exact hz
  have hur1 : (e1.grid xn zn).isRevealed = false := by
    rw [he1, e1of_isRevealed]; exact hur
  have hncE1 : NC e1.gridSize e1.grid := by
    rw [hgs, he1]; exact e1of_NC rand xn zn e hinv
  have hmcnt1 : mineCnt e1.gridSize e1.grid ≤ e1.minesCount := by
    rw [hgs, hmc, he1]; exact e1of_mineCnt rand xn zn e hinv
  have htot1 : e1.totalRevealed = revCnt e1.gridSize e1.grid := by
    rw [htr, hgs, he1, e1of_revCnt]
    exact hinv.total_eq
  have hnorm1 : ∀ a b, a < e1.gridSize → b < e1.gridSize →
      (e1.grid a b).isRevealed = true → (e1.grid a b).isMine = false := by
    intro a b ha hb hr
    rw [hgs] at ha hb
    rw [he1] at hr ⊢
    exact e1of_noRevMine rand xn zn e hinv hst a b ha hb hr
  set fr := doReveal e1.gridSize xn zn e1.grid with hfr
  set n := fr.1.length with hn
  have hrev2 : revCnt e1.gridSize fr.2 = revCnt e1.gridSize e1.grid + n := by
    rw [hfr]; exact revCnt_doReveal hx1 hz1
  have hmine2 : mineCnt e1.gridSize fr.2 = mineCnt e1.gridSize e1.grid := by
    rw [hfr]; exact mineCnt_doReveal
  have hpres : ∀ a b, (fr.2 a b).isMine = (e1.grid a b).isMine
      ∧ (fr.2 a b).neighborMines = (e1.grid a b).neighborMines := by
    rw [hfr]; exact doReveal_preserves
  have hnc2 : NC e1.gridSize fr.2 := NC_congr hpres hncE1
  have hfresh : ∀ (e' : Engine), e'.minesPlaced = e1.minesPlaced →
      e'.minesPlaced = false →
      ∀ a b, (e'.grid a b).isMine = false ∧ (e'.grid a b).isRevealed = false := by
    intro e' hpm hmp
    rw [hpm, hmp1] at hmp
    cases hmp
  have main : ∀ (SC : Scores) (TR : Option Nat),
      Inv (if (fr.2 xn zn).isMine = true
        then
          { e1 with
            grid := fr.2, revealsThisTurn := e1.revealsThisTurn + n,
            totalRevealed := e1.totalRevealed + n, isFirstMove := false,
            scores := SC, timeRemaining := TR,
            gameStatus := Status.finished, winner := some (other p) }
        else if winCond
          { e1 with
            grid := fr.2, revealsThisTurn := e1.revealsThisTurn + n,
            totalRevealed := e1.totalRevealed + n, isFirstMove := false,
            scores := SC, timeRemaining := TR } = true
        then
          { e1 with
            grid := fr.2, revealsThisTurn := e1.revealsThisTurn + n,
            totalRevealed := e1.totalRevealed + n, isFirstMove := false,
            scores := SC, timeRemaining := TR,
            gameStatus := Status.finished,
            winner := some (e1.lastPassedBy.getD p) }
        else
          { e1 with
            grid := fr.2, revealsThisTurn := e1.revealsThisTurn + n,
            totalRevealed := e1.totalRevealed + n, isFirstMove := false,
            scores := SC, timeRemaining := TR }) := by
    intro SC TR
    split_ifs with hmine hwin
    · -- the clicked tile was a mine: terminal, hit-mine
      have hclicked : (e1.grid xn zn).isMine = true := by
        rw [← (hpres xn zn).1]; exact hmine
      have hmpE : e.minesPlaced = true := by
        cases hmp : e.minesPlaced
        · exfalso
          have hfree := hinv.fresh hmp
          have hsafe : inSafeZone e.gridSize xn zn xn zn = true := by
            unfold inSafeZone
            simp [hx, hz]
          have : (e1.grid xn zn).isMine = false := by
            rw [he1]
            unfold e1of
            rw [hmp]
            simp only [Bool.false_eq_true, if_false]
            exact placeMines_safe rand xn zn e (fun a b => (hfree a b).1) xn zn hsafe
          rw [this] at hclicked
          cases hclicked
        · rfl
      have hn1 : n = 1 := by
        rw [hn, hfr, doReveal_clicked_mine hur1 hclicked]
        rfl
      have hlt := hinv.playing_lt hst hmpE
      refine ⟨?_, hfresh _ rfl, ?_, ?_, ?_, ?_, ?_⟩
      · show e1.totalRevealed + n = revCnt e1.gridSize fr.2
        rw [hrev2, htot1]
      · intro _
        show NC e1.gridSize fr.2
        exact hnc2
      · show mineCnt e1.gridSize fr.2 ≤ e1.minesCount
        rw [hmine2]; exact hmcnt1
      · intro habs _
        cases habs
      · intro habs
        cases habs
      · show e1.totalRevealed + n + mineCnt e1.gridSize fr.2 ≤ e1.gridSize * e1.gridSize
        have hmle : mineCnt e1.gridSize fr.2 ≤ e.minesCount := by
          rw [hmine2, ← hmc]; exact hmcnt1
        rw [hgs] at hmle
        have hsq : ((e.gridSize * e.gridSize : Nat) : Int)
            = (e.gridSize : Int) * (e.gridSize : Int) := by
          push_cast; ring
        rw [← hsq] at hlt
        rw [hn1, htr, hgs]
        omega
    · -- all-safe-revealed terminal
      have hclicked : (e1.grid xn zn).isMine = false := by
        rw [← (hpres xn zn).1]
        cases h : (fr.2 xn zn).isMine
        · rfl
        · exact absurd h hmine
      have hnorm2 : ∀ a b, a < e1.gridSize → b < e1.gridSize →
          (fr.2 a b).isRevealed = true → (fr.2 a b).isMine = false := by
        rw [hfr]
        exact doReveal_no_rev_mine hncE1 hx1 hz1 hclicked hnorm1
      refine ⟨?_, hfresh _ rfl, ?_, ?_, ?_, ?_, ?_⟩
      · show e1.totalRevealed + n = revCnt e1.gridSize fr.2
        rw [hrev2, htot1]
      · intro _
        show NC e1.gridSize fr.2
        exact hnc2
      · show mineCnt e1.gridSize fr.2 ≤ e1.minesCount
        rw [hmine2]; exact hmcnt1
      · intro habs _
        cases habs
      · intro habs
        cases habs
      · show e1.totalRevealed + n + mineCnt e1.gridSize fr.2 ≤ e1.gridSize * e1.gridSize
        have hle : revCnt e1.gridSize fr.2 + mineCnt e1.gridSize fr.2
            ≤ e1.gridSize * e1.gridSize :=
          gridCount_add_le fun a b ha hb hP => hnorm2 a b ha hb hP
        rw [htot1]
        omega
    · -- non-terminal reveal
      have hclicked : (e1.grid xn zn).isMine = false := by
        rw [← (hpres xn zn).1]
        cases h : (fr.2 xn zn).isMine
        · rfl
        · exact absurd h hmine
      have hnorm2 : ∀ a b, a < e1.gridSize → b < e1.gridSize →
          (fr.2 a b).isRevealed = true → (fr.2 a b).isMine = false := by
        rw [hfr]
        exact doReveal_no_rev_mine hncE1 hx1 hz1 hclicked hnorm1
      refine ⟨?_, hfresh _ rfl, ?_, ?_, ?_, ?_, ?_⟩
      · show e1.totalRevealed + n = revCnt e1.gridSize fr.2
        rw [hrev2, htot1]
      · intro _
        show NC e1.gridSize fr.2
        exact hnc2
      · show mineCnt e1.gridSize fr.2 ≤ e1.minesCount
        rw [hmine2]; exact hmcnt1
      · intro _ _
        show ((e1.totalRevealed + n : Nat) : Int)
            < (e1.gridSize : Int) * (e1.gridSize : Int) - (e1.minesCount : Int)
        unfold winCond at hwin
        dsimp only at hwin
        simp only [decide_eq_true_eq, not_le] at hwin
        exact_mod_cast hwin
      · intro _ a b ha hb hr
        exact hnorm2 a b ha hb hr
      · show e1.totalRevealed + n + mineCnt e1.gridSize fr.2 ≤ e1.gridSize * e1.gridSize
        have hle : revCnt e1.gridSize fr.2 + mineCnt e1.gridSize fr.2
            ≤ e1.gridSize * e1.gridSize :=
          gridCount_add_le fun a b ha hb hP => hnorm2 a b ha hb hP
        rw [htot1]
        omega
  exact main (if e.isFirstMove then e1.scores else addScore e1.scores p (n * 10))
    (if e.isFirstMove then some e1.turnTimeLimit else e1.timeRemaining)

lemma inv_revealTile (rand : Nat → Nat × Nat) (x z : Int) (p : Player) (e : Engine)
    (hinv : Inv e) : Inv (revealTile rand x z p e).2 := by
  unfold revealTile
  split_ifs with h1 h2 h3 h4
  · exact hinv
  · exact hinv
  · exact hinv
  · exact hinv
  · have hst : e.gameStatus = .playing := not_not.mp h1
    push_neg at h3
    obtain ⟨hx0, hxlt, hz0, hzlt⟩ := h3
    have hx : x.toNat < e.gridSize := by omega
    have hz : z.toNat < e.gridSize := by omega
    have hur : (e.grid x.toNat z.toNat).isRevealed = false := by
      cases h : (e.grid x.toNat z.toNat).isRevealed
      · rfl
      · exact absurd h h4
    exact inv_revealApply rand x.toNat z.toNat p e hst hx hz hur hinv

/-- Every reachable engine state satisfies the invariant. -/
lemma reachable_inv {e : Engine} (h : Reachable e) : Inv e := by
  induction h with
  | init s => exact inv_generateGrid _
  | step _ hstep ih =>
    cases hstep with
    | reveal rand x z p e => exact inv_revealTile rand x z p _ ih
    | pass p e => exact inv_passTurn p _ ih
    | timeout e hpl => exact inv_handleTimeout _ ih

/-- The closed form of the result record produced by `revealApply`. -/
def postResult (rand : Nat → Nat × Nat) (xn zn : Nat) (p : Player) (e : Engine) :
    RevealResult :=
  if ((doReveal (e1of rand xn zn e).gridSize xn zn (e1of rand xn zn e).grid).2 xn zn).isMine then
    { success := true, hitMine := true
      revealedTiles := (doReveal (e1of rand xn zn e).gridSize xn zn (e1of rand xn zn e).grid).1
      gameOver := true, winner := some (other p), loser := some p
      scores := (e4core rand xn zn p e).scores
      allMines := getAllMines (e4core rand xn zn p e) }
  else if winCond (e4core rand xn zn p e) then
    { success := true, hitMine := false
      revealedTiles := (doReveal (e1of rand xn zn e).gridSize xn zn (e1of rand xn zn e).grid).1
      gameOver := true, winner := some ((e1of rand xn zn e).lastPassedBy.getD p)
      reason := some .allSafeRevealed
      scores := (e4core rand xn zn p e).scores }
  else
    { success := true, hitMine := false
      revealedTiles := (doReveal (e1of rand xn zn e).gridSize xn zn (e1of rand xn zn e).grid).1
      gameOver := false
      canPass := decide ((e4core rand xn zn p e).revealsThisTurn ≥ MIN_REVEALS_TO_PASS)
      revealsThisTurn := (e4core rand xn zn p e).revealsThisTurn
      scores := (e4core rand xn zn p e).scores
      timerStarted := e.isFirstMove
      timeRemaining := (e4core rand xn zn p e).timeRemaining }

lemma revealApply_result (rand : Nat → Nat × Nat) (xn zn : Nat) (p : Player) (e : Engine) :
    (revealApply rand xn zn p e).1 = postResult rand xn zn p e := by
  unfold revealApply postResult e4core
  by_cases hf : e.isFirstMove = true <;>
    simp only [hf, e1of_isFirstMove, if_true, if_false, Bool.false_eq_true] <;>
    split_ifs <;> rfl

lemma revealApply_success (rand : Nat → Nat × Nat) (xn zn : Nat) (p : Player) (e : Engine) :
    (revealApply rand xn zn p e).1.success = true
    ∧ (revealApply rand xn zn p e).1.error = none := by
  rw [revealApply_result]
  unfold postResult
  split_ifs <;> exact ⟨rfl, rfl⟩

/-! ### Claim theorems -/

/-- C5: `revealTile(x, z, player)` is rejected — `success = false` and the
whole engine state unchanged — exactly when, checked in this order:
the game is not in `playing` status; the caller is not `currentPlayer`;
the coordinates are out of bounds; the target tile is already revealed.
The `error` value identifies precisely which check fired first. -/
theorem reveal_reject_spec (rand : Nat → Nat × Nat) (x z : Int) (p : Player) (e : Engine) :
    ((revealTile rand x z p e).1.success = false ↔
      (e.gameStatus ≠ .playing ∨ p ≠ e.currentPlayer
        ∨ (x < 0 ∨ (e.gridSize : Int) ≤ x ∨ z < 0 ∨ (e.gridSize : Int) ≤ z)
        ∨ (e.grid x.toNat z.toNat).isRevealed = true))
    ∧ ((revealTile rand x z p e).1.success = false → (revealTile rand x z p e).2 = e)
    ∧ ((revealTile rand x z p e).1.error = some .notPlaying ↔ e.gameStatus ≠ .playing)
    ∧ ((revealTile rand x z p e).1.error = some .notYourTurn ↔
        e.gameStatus = .playing ∧ p ≠ e.currentPlayer)
    ∧ ((revealTile rand x z p e).1.error = some .invalidCoords ↔
        e.gameStatus = .playing ∧ p = e.currentPlayer
        ∧ (x < 0 ∨ (e.gridSize : Int) ≤ x ∨ z < 0 ∨ (e.gridSize : Int) ≤ z))
    ∧ ((revealTile rand x z p e).1.error = some .alreadyRevealed ↔
        e.gameStatus = .playing ∧ p = e.currentPlayer
        ∧ ¬(x < 0 ∨ (e.gridSize : Int) ≤ x ∨ z < 0 ∨ (e.gridSize : Int) ≤ z)
        ∧ (e.grid x.toNat z.toNat).isRevealed = true) := by
  unfold revealTile
  split_ifs with h1 h2 h3 h4
  · exact ⟨by simp [h1], fun _ => rfl, by simp [h1], by simp [h1], by simp [h1], by simp [h1]⟩
  · have hst : e.gameStatus = .playing := not_not.mp h1
    exact ⟨by simp [h2], fun _ => rfl, by simp [hst], by simp [hst, h2],
      by simp [h2], by simp [h2]⟩
  · have hst : e.gameStatus = .playing := not_not.mp h1
    have hcur : p = e.currentPlayer := not_not.mp h2
    exact ⟨by simp [h3], fun _ => rfl, by simp [hst], by simp [hcur],
      by simp [hst, hcur, h3], by simp [h3]⟩
  · have hst : e.gameStatus = .playing := not_not.mp h1
    have hcur : p = e.currentPlayer := not_not.mp h2
    exact ⟨by simp [h4], fun _ => rfl, by simp [hst], by simp [hcur],
      by simp [h3], by simp [hst, hcur, h3, h4]⟩
  · have hst : e.gameStatus = .playing := not_not.mp h1
    have hcur : p = e.currentPlayer := not_not.mp h2
    obtain ⟨hsucc, herr⟩ := revealApply_success rand x.toNat z.toNat p e
    refine ⟨?_, ?_, ?_, ?_, ?_, ?_⟩
    · rw [hsucc]
      simp [hst, hcur.symm, h3, h4]
    · intro habs
      rw [hsucc] at habs
      cases habs
    · rw [herr]; simp [hst]
    · rw [herr]; simp [hcur]
    · rw [herr]; simp [h3]
    · rw [herr]; simp [h4]

/-- C5 witness: a concrete rejected reveal (wrong turn) leaves a concrete
engine unchanged, and a rejection on a fresh game is impossible only for the
current player; instantiates the rejection specification. -/
theorem reveal_reject_spec_witness :
    ((revealTile (fun _ => (0, 0)) 0 0 .guest
        (generateGrid (mkEngine { gridSize := 2, minesCount := 1 }))).1.success = false) ∧
    ((revealTile (fun _ => (0, 0)) 0 0 .guest
        (generateGrid (mkEngine { gridSize := 2, minesCount := 1 }))).2
      = generateGrid (mkEngine { gridSize := 2, minesCount := 1 })) := by
  have h := reveal_reject_spec (fun _ => (0, 0)) 0 0 .guest
    (generateGrid (mkEngine { gridSize := 2, minesCount := 1 }))
  have hs : (revealTile (fun _ => (0, 0)) 0 0 .guest
      (generateGrid (mkEngine { gridSize := 2, minesCount := 1 }))).1.success = false := by
    rw [h.1]
    right; left
    decide
  exact ⟨hs, h.2.1 hs⟩

lemma revealApply_first_no_mine (rand : Nat → Nat × Nat) (xn zn : Nat) (p : Player)
    (e : Engine) (hmp : e.minesPlaced = false)
    (hfree : ∀ a b, (e.grid a b).isMine = false)
    (hx : xn < e.gridSize) (hz : zn < e.gridSize) :
    (revealApply rand xn zn p e).1.hitMine = false := by
  rw [revealApply_result]
  unfold postResult
  have he1 : e1of rand xn zn e = placeMines rand xn zn e := by
    unfold e1of
    rw [hmp]
    simp
  have hclick : ((doReveal (e1of rand xn zn e).gridSize xn zn
      (e1of rand xn zn e).grid).2 xn zn).isMine = false := by
    rw [(doReveal_preserves xn zn).1]
    rw [he1]
    apply placeMines_safe rand xn zn e hfree
    unfold inSafeZone
    simp [hx, hz]
  rw [if_neg (by rw [hclick]; exact Bool.false_ne_true)]
  split_ifs <;> rfl

/-- C2: first-click safety. In a reachable state where mines are not yet
placed, (a) after `placeMines(sx, sz)` every in-bounds tile of the clicked
3×3 zone is mine-free, and (b) any accepted `revealTile` (necessarily the
first of the game) reports `hitMine = false`. -/
theorem first_click_safety (e : Engine) (he : Reachable e) (hm : e.minesPlaced = false)
    (rand : Nat → Nat × Nat) (sx sz : Nat) (x z : Int) (p : Player) :
    (∀ a b, inSafeZone e.gridSize sx sz a b = true →
      ((placeMines rand sx sz e).grid a b).isMine = false)
    ∧ ((revealTile rand x z p e).1.success = true →
        (revealTile rand x z p e).1.hitMine = false) := by
  have hinv := reachable_inv he
  have hfree := hinv.fresh hm
  constructor
  · exact fun a b hs => placeMines_safe rand sx sz e (fun a b => (hfree a b).1) a b hs
  · intro hsucc
    by_cases h1 : e.gameStatus ≠ .playing
    · unfold revealTile at hsucc
      rw [if_pos h1] at hsucc
      simp at hsucc
    · by_cases h2 : p ≠ e.currentPlayer
      · unfold revealTile at hsucc
        rw [if_neg h1, if_pos h2] at hsucc
        simp at hsucc
      · by_cases h3 : x < 0 ∨ (e.gridSize : Int) ≤ x ∨ z < 0 ∨ (e.gridSize : Int) ≤ z
        · unfold revealTile at hsucc
          rw [if_neg h1, if_neg h2, if_pos h3] at hsucc
          simp at hsucc
        · by_cases h4 : (e.grid x.toNat z.toNat).isRevealed = true
          · unfold revealTile at hsucc
            rw [if_neg h1, if_neg h2, if_neg h3, if_pos h4] at hsucc
            simp at hsucc
          · unfold revealTile
            rw [if_neg h1, if_neg h2, if_neg h3, if_neg h4]
            push_neg at h3
            obtain ⟨hx0, hxlt, hz0, hzlt⟩ := h3
            exact revealApply_first_no_mine rand x.toNat z.toNat p e hm
              (fun a b => (hfree a b).1) (by omega) (by omega)

/-- C2 witness: on a fresh 2×2 game, mines avoid the 3×3 zone around the
first click and the first accepted reveal does not hit a mine. -/
theorem first_click_safety_witness :
    ((placeMines (fun _ => (0, 0)) 0 0
        (generateGrid (mkEngine { gridSize := 2, minesCount := 1 }))).grid 1 1).isMine = false
    ∧ (revealTile (fun _ => (0, 0)) 0 0 .host
        (generateGrid (mkEngine { gridSize := 2, minesCount := 1 }))).1.hitMine = false := by
  have h := first_click_safety (generateGrid (mkEngine { gridSize := 2, minesCount := 1 }))
    (Reachable.init _) rfl (fun _ => (0, 0)) 0 0 0 0 .host
  exact ⟨h.1 1 1 (by decide), h.2 (by decide)⟩

lemma doReveal_head {gs x z : Nat} {g : GridF} (hur : (g x z).isRevealed = false) :
    ∃ tl, (doReveal gs x z g).1
      = ({ x := x, z := z, isMine := (g x z).isMine,
           neighborMines := (g x z).neighborMines } : RTile) :: tl := by
  unfold doReveal
  by_cases hcond : (g x z).isMine = false ∧ (g x z).neighborMines = 0
  · refine ⟨(revealFoldFn (doRevealF gs (gs * gs)) (neighbors gs x z) (setRevealed g x z)).1, ?_⟩
    simp [doRevealF, hur, hcond]
  · refine ⟨[], ?_⟩
    simp [doRevealF, hur, hcond]

lemma e1of_NC2 (rand : Nat → Nat × Nat) (xn zn : Nat) (e : Engine)
    (hnce : NC e.gridSize e.grid) :
    NC (e1of rand xn zn e).gridSize (e1of rand xn zn e).grid := by
  unfold e1of
  split
  · exact hnce
  · exact placeMines_NC rand xn zn e

lemma revealTile_tiles_no_mine (rand : Nat → Nat × Nat) (xi zi : Int) (p : Player)
    (e : Engine) (hnce : NC e.gridSize e.grid)
    (hnm : (revealTile rand xi zi p e).1.hitMine = false) :
    ∀ t ∈ (revealTile rand xi zi p e).1.revealedTiles, t.isMine = false := by
  intro t ht
  by_cases h1 : e.gameStatus ≠ .playing
  · unfold revealTile at ht
    rw [if_pos h1] at ht
    simp at ht
  · by_cases h2 : p ≠ e.currentPlayer
    · unfold revealTile at ht
      rw [if_neg h1, if_pos h2] at ht
      simp at ht
    · by_cases h3 : xi < 0 ∨ (e.gridSize : Int) ≤ xi ∨ zi < 0 ∨ (e.gridSize : Int) ≤ zi
      · unfold revealTile at ht
        rw [if_neg h1, if_neg h2, if_pos h3] at ht
        simp at ht
      · by_cases h4 : (e.grid xi.toNat zi.toNat).isRevealed = true
        · unfold revealTile at ht
          rw [if_neg h1, if_neg h2, if_neg h3, if_pos h4] at ht
          simp at ht
        · have hrw : revealTile rand xi zi p e = revealApply rand xi.toNat zi.toNat p e := by
            unfold revealTile
            rw [if_neg h1, if_neg h2, if_neg h3, if_neg h4]
          rw [hrw, revealApply_result] at ht hnm
          unfold postResult at ht hnm
          by_cases hmine : ((doReveal (e1of rand xi.toNat zi.toNat e).gridSize xi.toNat zi.toNat
              (e1of rand xi.toNat zi.toNat e).grid).2 xi.toNat zi.toNat).isMine = true
          · rw [if_pos hmine] at hnm
            simp at hnm
          · rw [if_neg hmine] at ht
            push_neg at h3
            obtain ⟨hx0, hxlt, hz0, hzlt⟩ := h3
            have hgse : (e1of rand xi.toNat zi.toNat e).gridSize = e.gridSize :=
              e1of_gridSize rand xi.toNat zi.toNat e
            have hx1 : xi.toNat < (e1of rand xi.toNat zi.toNat e).gridSize := by
              rw [hgse]; omega
            have hz1 : zi.toNat < (e1of rand xi.toNat zi.toNat e).gridSize := by
              rw [hgse]; omega
            have hclick : ((e1of rand xi.toNat zi.toNat e).grid xi.toNat zi.toNat).isMine
                = false := by
              rw [← (doReveal_preserves xi.toNat zi.toNat).1]
              cases h : ((doReveal (e1of rand xi.toNat zi.toNat e).gridSize xi.toNat zi.toNat
                  (e1of rand xi.toNat zi.toNat e).grid).2 xi.toNat zi.toNat).isMine
              · rfl
              · exact absurd h hmine
            have hnoMine := doReveal_no_mine (e1of_NC2 rand xi.toNat zi.toNat e hnce)
              hx1 hz1 hclick
            split_ifs at ht
            · exact hnoMine t ht
            · exact hnoMine t ht

/-- C9: flood fill never reveals a mine except as the directly clicked tile:
in the list returned by `doReveal(x, z)` on a neighbour-consistent grid,
every element other than the first has `isMine = false`; consequently a
`revealTile` call whose clicked tile is not a mine (`hitMine = false`)
reveals only non-mine tiles, so the engine's mine check on the clicked tile
alone misses no revealed mine. -/
theorem flood_no_mine (gs x z : Nat) (g : GridF) (hnc : NC gs g)
    (hx : x < gs) (hz : z < gs)
    (rand : Nat → Nat × Nat) (xi zi : Int) (p : Player) (e : Engine)
    (hnce : NC e.gridSize e.grid) :
    (∀ r ∈ (doReveal gs x z g).1.tail, r.isMine = false)
    ∧ ((revealTile rand xi zi p e).1.hitMine = false →
        ∀ t ∈ (revealTile rand xi zi p e).1.revealedTiles, t.isMine = false) := by
  constructor
  · intro r hr
    by_cases hur : (g x z).isRevealed = true
    · have hnil : (doReveal gs x z g).1 = [] := by
        unfold doReveal
        simp [doRevealF, hur]
      rw [hnil] at hr
      simp at hr
    · have hur' : (g x z).isRevealed = false := by
        cases h : (g x z).isRevealed
        · rfl
        · exact absurd h hur
      obtain ⟨tl, hl⟩ := @doReveal_head gs _ _ _ hur'
      set hd : RTile := { x := x, z := z, isMine := (g x z).isMine, neighborMines := (g x z).neighborMines } with hhd
      cases hrm : r.isMine
      · rfl
      · exfalso
        obtain ⟨_, _, hnd, _, hmines⟩ := floodSpec_doReveal gs x z g
        have hrmem : r ∈ (doReveal gs x z g).1 := List.mem_of_mem_tail hr
        obtain ⟨hrx, hrz⟩ := hmines hnc hx hz r hrmem hrm
        rw [hl] at hr hnd
        simp only [List.tail_cons] at hr
        have hcoords : coordsOf (hd :: tl) = (x, z) :: coordsOf tl := by
          simp [coordsOf, hhd]
        rw [hcoords] at hnd
        have hnotin := (List.nodup_cons.mp hnd).1
        have : ((x, z) : Nat × Nat) ∈ coordsOf tl := by
          refine List.mem_map.mpr ⟨r, hr, ?_⟩
          rw [hrx, hrz]
        exact hnotin this
  · exact revealTile_tiles_no_mine rand xi zi p e hnce

/-- C9 witness: on a concrete consistent 2×2 grid with a mine at (1,1),
clicking (0,0) floods only safe tiles, and a concrete `revealTile` that does
not hit a mine reveals only safe tiles. -/
theorem flood_no_mine_witness :
    (∀ r ∈ (doReveal 2 0 0 (fun a b =>
      if a = 1 ∧ b = 1 then { isMine := true, isRevealed := false, neighborMines := 0 }
      else { isMine := false, isRevealed := false, neighborMines := 1 })).1.tail,
      r.isMine = false)
    ∧ ((revealTile (fun _ => (0, 0)) 0 0 .host
        (generateGrid (mkEngine { gridSize := 2, minesCount := 1 }))).1.hitMine = false →
      ∀ t ∈ (revealTile (fun _ => (0, 0)) 0 0 .host
        (generateGrid (mkEngine { gridSize := 2, minesCount := 1 }))).1.revealedTiles,
        t.isMine = false) := by
  have h := flood_no_mine 2 0 0 (fun a b =>
      if a = 1 ∧ b = 1 then { isMine := true, isRevealed := false, neighborMines := 0 }
      else { isMine := false, isRevealed := false, neighborMines := 1 })
    (by decide) (by decide) (by decide)
    (fun _ => (0, 0)) 0 0 .host
    (generateGrid (mkEngine { gridSize := 2, minesCount := 1 }))
    (by decide)
  exact h

/-- C10: `doReveal` terminates on every finite grid: once the recursion-depth
fuel exceeds the number of unrevealed tiles the fuel-indexed unfolding is
fuel-independent (each call marks an unrevealed tile revealed before
descending, so the unrevealed count strictly decreases), and the returned
list of revealed tiles carries no duplicate coordinates. -/
theorem flood_terminates (gs x z : Nat) (g : GridF) (hx : x < gs) (hz : z < gs) :
    (∀ f₁ f₂, unrevCnt gs g < f₁ → unrevCnt gs g < f₂ →
      doRevealF gs f₁ x z g = doRevealF gs f₂ x z g)
    ∧ (∀ f, unrevCnt gs g < f → doRevealF gs f x z g = doReveal gs x z g)
    ∧ (coordsOf (doReveal gs x z g).1).Nodup := by
  refine ⟨fun f₁ f₂ h1 h2 => doRevealF_fuel_stable gs hx hz f₁ f₂ h1 h2, ?_,
    (floodSpec_doReveal gs x z g).2.2.1⟩
  intro f hf
  unfold doReveal
  refine doRevealF_fuel_stable gs hx hz f (gs * gs + 1) hf ?_
  have := @unrevCnt_le_total gs g
  omega

/-- C10 witness: fuel-independence and duplicate-freedom at a concrete grid. -/
theorem flood_terminates_witness :
    doRevealF 2 5 0 0 (fun _ _ => defaultTile) = doRevealF 2 9 0 0 (fun _ _ => defaultTile)
    ∧ (coordsOf (doReveal 2 0 0 (fun _ _ => defaultTile)).1).Nodup := by
  have h := flood_terminates 2 0 0 (fun _ _ => defaultTile) (by decide) (by decide)
  exact ⟨h.1 5 9 (by decide) (by decide), h.2.2⟩

/-- C3 counterexample: with `gridSize = 2`, `minesCount = 1` and safe-zone
centre (0,0), the clipped 3×3 safe zone covers the whole board, so the
bounded placement loop exhausts its 40 attempts and places 0 ≠ 1 mines. -/
theorem mine_count_cex :
    (generateGrid (mkEngine { gridSize := 2, minesCount := 1 })).minesCount = 1
    ∧ (generateGrid (mkEngine { gridSize := 2, minesCount := 1 })).gridSize = 2
    ∧ mineCnt 2 (placeMines (fun _ => (0, 0)) 0 0
        (generateGrid (mkEngine { gridSize := 2, minesCount := 1 }))).grid = 0 := by
  refine ⟨rfl, rfl, ?_⟩
  decide

/-- C3 amended: after `placeMines` from a mine-free grid, the number of tiles
with `isMine = true` is at most `minesCount`; it equals `minesCount` only
when the bounded sampling finds enough cells outside the safe zone, and can
fall short (see the counterexample). -/
theorem mine_count_le (rand : Nat → Nat × Nat) (sx sz : Nat) (e : Engine)
    (hfree : ∀ a b, (e.grid a b).isMine = false) :
    mineCnt e.gridSize (placeMines rand sx sz e).grid ≤ e.minesCount :=
  placeMines_mineCnt rand sx sz e hfree

/-- C3 witness: the amended bound at a concrete placement. -/
theorem mine_count_le_witness :
    mineCnt (generateGrid (mkEngine { gridSize := 3, minesCount := 2 })).gridSize
      (placeMines (fun i => if i = 0 then (2, 2) else (0, 2)) 0 0
        (generateGrid (mkEngine { gridSize := 3, minesCount := 2 }))).grid
      ≤ (generateGrid (mkEngine { gridSize := 3, minesCount := 2 })).minesCount :=
  mine_count_le (fun i => if i = 0 then (2, 2) else (0, 2)) 0 0
    (generateGrid (mkEngine { gridSize := 3, minesCount := 2 })) (fun _ _ => rfl)

lemma e4core_gridSize (rand : Nat → Nat × Nat) (xn zn : Nat) (p : Player) (e : Engine) :
    (e4core rand xn zn p e).gridSize = e.gridSize := by
  show (e1of rand xn zn e).gridSize = e.gridSize
  exact e1of_gridSize rand xn zn e

lemma e4core_minesCount (rand : Nat → Nat × Nat) (xn zn : Nat) (p : Player) (e : Engine) :
    (e4core rand xn zn p e).minesCount = e.minesCount := by
  show (e1of rand xn zn e).minesCount = e.minesCount
  exact e1of_minesCount rand xn zn e

lemma e4core_lastPassedBy (rand : Nat → Nat × Nat) (xn zn : Nat) (p : Player) (e : Engine) :
    (e4core rand xn zn p e).lastPassedBy = e.lastPassedBy := by
  show (e1of rand xn zn e).lastPassedBy = e.lastPassedBy
  exact e1of_lastPassedBy rand xn zn e

/-- C4 counterexample: on a reachable 2×2 state with `minesCount = 1` the
bounded placement put 0 mines, the first flood revealed all 4 tiles, and
`totalRevealed = 4 > 3 = gridSize² − minesCount`; the `all_safe_revealed`
terminal fired with `totalRevealed ≠ gridSize² − minesCount`. -/
theorem reveal_bound_cex :
    Reachable (revealTile (fun _ => (0, 0)) 0 0 .host
      (generateGrid (mkEngine { gridSize := 2, minesCount := 1 }))).2
    ∧ (revealTile (fun _ => (0, 0)) 0 0 .host
        (generateGrid (mkEngine { gridSize := 2, minesCount := 1 }))).2.totalRevealed = 4
    ∧ (revealTile (fun _ => (0, 0)) 0 0 .host
        (generateGrid (mkEngine { gridSize := 2, minesCount := 1 }))).2.gridSize = 2
    ∧ (revealTile (fun _ => (0, 0)) 0 0 .host
        (generateGrid (mkEngine { gridSize := 2, minesCount := 1 }))).2.minesCount = 1
    ∧ ¬((revealTile (fun _ => (0, 0)) 0 0 .host
        (generateGrid (mkEngine { gridSize := 2, minesCount := 1 }))).2.totalRevealed
      ≤ 2 * 2 - 1)
    ∧ (revealTile (fun _ => (0, 0)) 0 0 .host
        (generateGrid (mkEngine { gridSize := 2, minesCount := 1 }))).1.reason
      = some .allSafeRevealed
    ∧ (revealTile (fun _ => (0, 0)) 0 0 .host
        (generateGrid (mkEngine { gridSize := 2, minesCount := 1 }))).2.totalRevealed
      ≠ 2 * 2 - 1 := by
  refine ⟨?_, ?_, rfl, rfl, ?_, ?_, ?_⟩
  · exact Reachable.step (Reachable.init _) (EStep.reveal _ 0 0 .host _)
  · decide
  · decide
  · decide
  · decide

/-- C4 amended: in every reachable engine state,
`totalRevealed + M ≤ gridSize²` where `M` is the number of mines actually on
the grid (`M ≤ minesCount`, but `M` can fall short of `minesCount`, in which
case `totalRevealed` may exceed `gridSize² − minesCount`). The
`all_safe_revealed` terminal of `revealTile` fires exactly when the reveal
succeeds, hits no mine, and the updated `totalRevealed` is ≥
`gridSize² − minesCount` (a threshold check, not an equality); the winner is
then `lastPassedBy` if set, else the acting player. -/
theorem reveal_bound (e : Engine) (he : Reachable e) :
    (e.totalRevealed + mineCnt e.gridSize e.grid ≤ e.gridSize * e.gridSize)
    ∧ ∀ (rand : Nat → Nat × Nat) (x z : Int) (p : Player),
      ((revealTile rand x z p e).1.reason = some .allSafeRevealed ↔
        (revealTile rand x z p e).1.success = true
        ∧ (revealTile rand x z p e).1.hitMine = false
        ∧ (((revealTile rand x z p e).2.totalRevealed : Int)
            ≥ (e.gridSize : Int) * (e.gridSize : Int) - (e.minesCount : Int)))
      ∧ ((revealTile rand x z p e).1.reason = some .allSafeRevealed →
          (revealTile rand x z p e).1.winner = some (e.lastPassedBy.getD p)) := by
  refine ⟨(reachable_inv he).bound, ?_⟩
  intro rand x z p
  by_cases h1 : e.gameStatus ≠ .playing
  · unfold revealTile
    rw [if_pos h1]
    exact ⟨by simp, by intro habs; simp at habs⟩
  · by_cases h2 : p ≠ e.currentPlayer
    · unfold revealTile
      rw [if_neg h1, if_pos h2]
      exact ⟨by simp, by intro habs; simp at habs⟩
    · by_cases h3 : x < 0 ∨ (e.gridSize : Int) ≤ x ∨ z < 0 ∨ (e.gridSize : Int) ≤ z
      · unfold revealTile
        rw [if_neg h1, if_neg h2, if_pos h3]
        exact ⟨by simp, by intro habs; simp at habs⟩
      · by_cases h4 : (e.grid x.toNat z.toNat).isRevealed = true
        · unfold revealTile
          rw [if_neg h1, if_neg h2, if_neg h3, if_pos h4]
          exact ⟨by simp, by intro habs; simp at habs⟩
        · have hrw : revealTile rand x z p e = revealApply rand x.toNat z.toNat p e := by
            unfold revealTile
            rw [if_neg h1, if_neg h2, if_neg h3, if_neg h4]
          rw [hrw, revealApply_result, revealApply_state]
          unfold postResult postEngine
          split_ifs with hmine hwin
          · exact ⟨by simp, by intro habs; simp at habs⟩
          · have hthr : ((e4core rand x.toNat z.toNat p e).totalRevealed : Int)
                ≥ (e.gridSize : Int) * (e.gridSize : Int) - (e.minesCount : Int) := by
              unfold winCond at hwin
              simp only [decide_eq_true_eq] at hwin
              rw [e4core_gridSize, e4core_minesCount] at hwin
              exact hwin
            refine ⟨?_, ?_⟩
            · constructor
              · intro _
                exact ⟨rfl, rfl, hthr⟩
              · intro _
                rfl
            · intro _
              show some ((e4core rand x.toNat z.toNat p e).lastPassedBy.getD p) = _
              rw [e4core_lastPassedBy]
          · refine ⟨?_, by intro habs; simp at habs⟩
            constructor
            · intro habs
              simp at habs
            · intro ⟨_, _, hthr⟩
              exfalso
              apply hwin
              unfold winCond
              simp only [decide_eq_true_eq]
              rw [e4core_gridSize, e4core_minesCount]
              exact hthr

/-- C4 witness: the amended bound and terminal characterization at a fresh
10×10 default engine (and concretely on a 2×2 instance). -/
theorem reveal_bound_witness :
    ((generateGrid (mkEngine { gridSize := 2, minesCount := 1 })).totalRevealed
      + mineCnt (generateGrid (mkEngine { gridSize := 2, minesCount := 1 })).gridSize
          (generateGrid (mkEngine { gridSize := 2, minesCount := 1 })).grid
      ≤ (generateGrid (mkEngine { gridSize := 2, minesCount := 1 })).gridSize
        * (generateGrid (mkEngine { gridSize := 2, minesCount := 1 })).gridSize) := by
  exact (reveal_bound (generateGrid (mkEngine { gridSize := 2, minesCount := 1 }))
    (Reachable.init _)).1

lemma e4core_scores (rand : Nat → Nat × Nat) (xn zn : Nat) (p : Player) (e : Engine) :
    (e4core rand xn zn p e).scores
      = if e.isFirstMove then e.scores
        else addScore e.scores p
          ((doReveal (e1of rand xn zn e).gridSize xn zn
            (e1of rand xn zn e).grid).1.length * 10) := by
  show (if e.isFirstMove then (e1of rand xn zn e).scores
    else addScore (e1of rand xn zn e).scores p _) = _
  rw [e1of_scores]

/-- C6 counterexample: a reachable 3×3 game where the second (non-first)
reveal hits a mine: the result's `revealedTiles` contains zero safe tiles,
yet the acting player's score increases by 10 — the code pays 10 per
revealed tile including the clicked mine, contradicting "a reveal that hits
a mine adds nothing for the mine tile". -/
theorem score_delta_cex :
    Reachable (revealTile (fun i => if i = 0 then (2, 2) else (0, 2)) 0 0 .host
      (generateGrid (mkEngine { gridSize := 3, minesCount := 2 }))).2
    ∧ (revealTile (fun i => if i = 0 then (2, 2) else (0, 2)) 0 0 .host
        (generateGrid (mkEngine { gridSize := 3, minesCount := 2 }))).2.isFirstMove = false
    ∧ (revealTile (fun i => if i = 0 then (2, 2) else (0, 2)) 2 2 .host
        (revealTile (fun i => if i = 0 then (2, 2) else (0, 2)) 0 0 .host
          (generateGrid (mkEngine { gridSize := 3, minesCount := 2 }))).2).1.success = true
    ∧ (revealTile (fun i => if i = 0 then (2, 2) else (0, 2)) 2 2 .host
        (revealTile (fun i => if i = 0 then (2, 2) else (0, 2)) 0 0 .host
          (generateGrid (mkEngine { gridSize := 3, minesCount := 2 }))).2).1.hitMine = true
    ∧ ((revealTile (fun i => if i = 0 then (2, 2) else (0, 2)) 2 2 .host
        (revealTile (fun i => if i = 0 then (2, 2) else (0, 2)) 0 0 .host
          (generateGrid (mkEngine { gridSize := 3, minesCount := 2 }))).2).1.revealedTiles.filter
        (fun t => !t.isMine)).length = 0
    ∧ (revealTile (fun i => if i = 0 then (2, 2) else (0, 2)) 2 2 .host
        (revealTile (fun i => if i = 0 then (2, 2) else (0, 2)) 0 0 .host
          (generateGrid (mkEngine { gridSize := 3, minesCount := 2 }))).2).2.scores.host
      = (revealTile (fun i => if i = 0 then (2, 2) else (0, 2)) 0 0 .host
          (generateGrid (mkEngine { gridSize := 3, minesCount := 2 }))).2.scores.host + 10 := by
  refine ⟨?_, ?_, ?_, ?_, ?_, ?_⟩
  · exact Reachable.step (Reachable.init _) (EStep.reveal _ 0 0 .host _)
  · decide
  · decide
  · decide
  · decide
  · decide

/-- C6 amended: a successful first reveal of a game adds nothing to either
score; every subsequent successful reveal adds exactly
`10 · |revealedTiles|` to the acting player's score, where `revealedTiles`
counts every revealed tile — including the clicked mine when the reveal hits
one. When no mine is hit (and the grid is neighbour-consistent) every
revealed tile is safe, so the grant is then 10 per revealed safe tile. -/
theorem score_delta (rand : Nat → Nat × Nat) (x z : Int) (p : Player) (e : Engine)
    (hsucc : (revealTile rand x z p e).1.success = true) :
    (e.isFirstMove = true → (revealTile rand x z p e).2.scores = e.scores)
    ∧ (e.isFirstMove = false →
        (revealTile rand x z p e).2.scores
          = addScore e.scores p ((revealTile rand x z p e).1.revealedTiles.length * 10))
    ∧ ((revealTile rand x z p e).1.hitMine = false → NC e.gridSize e.grid →
        ∀ t ∈ (revealTile rand x z p e).1.revealedTiles, t.isMine = false) := by
  refine ⟨?_, ?_, fun hnm hnc => revealTile_tiles_no_mine rand x z p e hnc hnm⟩
  all_goals (
    by_cases h1 : e.gameStatus ≠ .playing
    · exfalso
      unfold revealTile at hsucc
      rw [if_pos h1] at hsucc
      simp at hsucc
    · by_cases h2 : p ≠ e.currentPlayer
      · exfalso
        unfold revealTile at hsucc
        rw [if_neg h1, if_pos h2] at hsucc
        simp at hsucc
      · by_cases h3 : x < 0 ∨ (e.gridSize : Int) ≤ x ∨ z < 0 ∨ (e.gridSize : Int) ≤ z
        · exfalso
          unfold revealTile at hsucc
          rw [if_neg h1, if_neg h2, if_pos h3] at hsucc
          simp at hsucc
        · by_cases h4 : (e.grid x.toNat z.toNat).isRevealed = true
          · exfalso
            unfold revealTile at hsucc
            rw [if_neg h1, if_neg h2, if_neg h3, if_pos h4] at hsucc
            simp at hsucc
          · have hrw : revealTile rand x z p e = revealApply rand x.toNat z.toNat p e := by
              unfold revealTile
              rw [if_neg h1, if_neg h2, if_neg h3, if_neg h4]
            rw [hrw, revealApply_state]
            try rw [revealApply_result]
            unfold postEngine
            try unfold postResult
            intro hf
            split_ifs with hmine hwin <;>
              (show (e4core rand x.toNat z.toNat p e).scores = _
               rw [e4core_scores, hf]
               simp))

/-- C6 witness: the amended scoring law instantiated at the concrete
mine-hitting second reveal of the 3×3 scenario. -/
theorem score_delta_witness :
    (revealTile (fun i => if i = 0 then (2, 2) else (0, 2)) 2 2 .host
      (revealTile (fun i => if i = 0 then (2, 2) else (0, 2)) 0 0 .host
        (generateGrid (mkEngine { gridSize := 3, minesCount := 2 }))).2).2.scores
    = addScore (revealTile (fun i => if i = 0 then (2, 2) else (0, 2)) 0 0 .host
        (generateGrid (mkEngine { gridSize := 3, minesCount := 2 }))).2.scores .host
      ((revealTile (fun i => if i = 0 then (2, 2) else (0, 2)) 2 2 .host
        (revealTile (fun i => if i = 0 then (2, 2) else (0, 2)) 0 0 .host
          (generateGrid (mkEngine { gridSize := 3, minesCount := 2 }))).2).1.revealedTiles.length
        * 10) :=
  (score_delta (fun i => if i = 0 then (2, 2) else (0, 2)) 2 2 .host
    (revealTile (fun i => if i = 0 then (2, 2) else (0, 2)) 0 0 .host
      (generateGrid (mkEngine { gridSize := 3, minesCount := 2 }))).2
    (by decide)).2.1 (by decide)

/-- C1 counterexample: a room whose engine holds an unrevealed mine at
(0,0); the `spectate_joined` reply built by the `public_spectate` handler
(`room.game.getGameState()`) masks that tile — its snapshot `isMine` is
`none` (JS `undefined`), not the god view — refuting the claim that every
spectator-delivered grid snapshot includes `isMine`/`neighborMines` for all
tiles. -/
theorem spectate_snapshot_cex :
    publicSpectateReplyGame
      { code := "AAAAAA"
        host := { socketId := "s1", name := "h", score := 0 }
        guest := none
        gameState := .playing
        settings := { gridSize := 2, minesCount := 1 }
        game := some { (mkEngine { gridSize := 2, minesCount := 1 }) with
          gameStatus := .playing
          minesPlaced := true
          grid := fun a b =>
            if a = 0 ∧ b = 0 then { isMine := true, isRevealed := false, neighborMines := 0 }
            else { isMine := false, isRevealed := false, neighborMines := 1 } }
        createdAt := 0
        gameStartedAt := none
        spectators := []
        matchStats := none
        nextStartingPlayer := none }
    = some (getGameState { (mkEngine { gridSize := 2, minesCount := 1 }) with
        gameStatus := .playing
        minesPlaced := true
        grid := fun a b =>
          if a = 0 ∧ b = 0 then { isMine := true, isRevealed := false, neighborMines := 0 }
          else { isMine := false, isRevealed := false, neighborMines := 1 } })
    ∧ (({ (mkEngine { gridSize := 2, minesCount := 1 }) with
          gameStatus := .playing
          minesPlaced := true
          grid := fun a b =>
            if a = 0 ∧ b = 0 then { isMine := true, isRevealed := false, neighborMines := 0 }
            else { isMine := false, isRevealed := false, neighborMines := 1 } } : Engine).grid
        0 0).isMine = true
    ∧ (((getGameState { (mkEngine { gridSize := 2, minesCount := 1 }) with
          gameStatus := .playing
          minesPlaced := true
          grid := fun a b =>
            if a = 0 ∧ b = 0 then { isMine := true, isRevealed := false, neighborMines := 0 }
            else { isMine := false, isRevealed := false, neighborMines := 1 } }).grid.getD 0 []).getD
        0 noTile).isMine = none := by
  refine ⟨rfl, by decide, by decide⟩

lemma clientGrid_getD (e : Engine) {x z : Nat} (hx : x < e.gridSize) (hz : z < e.gridSize) :
    ((getClientGrid e).getD x []).getD z noTile
      = { x := x, z := z, isRevealed := (e.grid x z).isRevealed
          isMine := if (e.grid x z).isRevealed then some (e.grid x z).isMine else none
          neighborMines := if (e.grid x z).isRevealed then some (e.grid x z).neighborMines
                           else none } := by
  have hrow : (getClientGrid e).getD x []
      = (List.range e.gridSize).map (fun zz =>
          ({ x := x, z := zz, isRevealed := (e.grid x zz).isRevealed
             isMine := if (e.grid x zz).isRevealed then some (e.grid x zz).isMine else none
             neighborMines := if (e.grid x zz).isRevealed
                              then some (e.grid x zz).neighborMines else none } : CTile)) := by
    unfold getClientGrid
    rw [List.getD_eq_getElem?_getD, List.getElem?_map, List.getElem?_range hx]
    rfl
  rw [hrow, List.getD_eq_getElem?_getD, List.getElem?_map, List.getElem?_range hz]
  rfl

lemma fullGrid_getD (e : Engine) {x z : Nat} (hx : x < e.gridSize) (hz : z < e.gridSize) :
    ((getFullGridForSpectator e).getD x []).getD z noTile
      = { x := x, z := z, isRevealed := (e.grid x z).isRevealed
          isMine := some (e.grid x z).isMine
          neighborMines := some (e.grid x z).neighborMines } := by
  have hrow : (getFullGridForSpectator e).getD x []
      = (List.range e.gridSize).map (fun zz =>
          ({ x := x, z := zz, isRevealed := (e.grid x zz).isRevealed
             isMine := some (e.grid x zz).isMine
             neighborMines := some (e.grid x zz).neighborMines } : CTile)) := by
    unfold getFullGridForSpectator
    rw [List.getD_eq_getElem?_getD, List.getElem?_map, List.getElem?_range hx]
    rfl
  rw [hrow, List.getD_eq_getElem?_getD, List.getElem?_map, List.getElem?_range hz]
  rfl

/-- C1 amended: `getClientGrid` (the player view) always carries `x`, `z`,
`isRevealed` and masks `isMine`/`neighborMines` to `undefined` exactly on
unrevealed tiles; `getFullGridForSpectator` (the god view used for the
spectator broadcasts and, via `getSpectatorGameState`, for the admin
`spectate_joined` reply) populates them on every tile. The `spectate_joined`
reply to a *public* spectator, however, carries the masked player view:
its `game` field is `room.game.getGameState()`, whose grid is
`getClientGrid`. -/
theorem spectate_snapshot_masking (e : Engine) (room : Room) (x z : Nat)
    (hx : x < e.gridSize) (hz : z < e.gridSize) (hg : room.game = some e) :
    (((getClientGrid e).getD x []).getD z noTile).x = x
    ∧ (((getClientGrid e).getD x []).getD z noTile).z = z
    ∧ (((getClientGrid e).getD x []).getD z noTile).isRevealed = (e.grid x z).isRevealed
    ∧ ((e.grid x z).isRevealed = false →
        (((getClientGrid e).getD x []).getD z noTile).isMine = none
        ∧ (((getClientGrid e).getD x []).getD z noTile).neighborMines = none)
    ∧ ((e.grid x z).isRevealed = true →
        (((getClientGrid e).getD x []).getD z noTile).isMine = some (e.grid x z).isMine
        ∧ (((getClientGrid e).getD x []).getD z noTile).neighborMines
            = some (e.grid x z).neighborMines)
    ∧ (((getFullGridForSpectator e).getD x []).getD z noTile).isMine = some (e.grid x z).isMine
    ∧ (((getFullGridForSpectator e).getD x []).getD z noTile).neighborMines
        = some (e.grid x z).neighborMines
    ∧ (getGameState e).grid = getClientGrid e
    ∧ (getSpectatorGameState e).grid = getFullGridForSpectator e
    ∧ publicSpectateReplyGame room = some (getGameState e)
    ∧ adminSpectateReplyGame room = some (getSpectatorGameState e) := by
  rw [clientGrid_getD e hx hz, fullGrid_getD e hx hz]
  refine ⟨rfl, rfl, rfl, ?_, ?_, rfl, rfl, rfl, rfl, ?_, ?_⟩
  · intro h
    rw [h]
    exact ⟨rfl, rfl⟩
  · intro h
    rw [h]
    exact ⟨rfl, rfl⟩
  · unfold publicSpectateReplyGame
    rw [hg]
    rfl
  · unfold adminSpectateReplyGame
    rw [hg]
    rfl

/-- C1 witness: the amended masking law at a concrete engine and room. -/
theorem spectate_snapshot_masking_witness :
    ((((getClientGrid (generateGrid (mkEngine { gridSize := 2, minesCount := 1 }))).getD
        0 []).getD 0 noTile).isMine = none)
    ∧ ((((getFullGridForSpectator
        (generateGrid (mkEngine { gridSize := 2, minesCount := 1 }))).getD 0 []).getD
        0 noTile).isMine = some false) := by
  have h := spectate_snapshot_masking
    (generateGrid (mkEngine { gridSize := 2, minesCount := 1 }))
    { code := "AAAAAA"
      host := { socketId := "s1", name := "h", score := 0 }
      guest := none
      gameState := .playing
      settings := { gridSize := 2, minesCount := 1 }
      game := some (generateGrid (mkEngine { gridSize := 2, minesCount := 1 }))
      createdAt := 0
      gameStartedAt := none
      spectators := []
      matchStats := none
      nextStartingPlayer := none }
    0 0 (by decide) (by decide) rfl
  exact ⟨(h.2.2.2.1 rfl).1, h.2.2.2.2.2.1⟩

/-- C7: the `createRoom` object literal contains no `matchStats` field at
all, so for every room it produces `matchStats` is `undefined` (`none`), not
the promised `{gamesPlayed, hostWins, guestWins}` record; consequently the
very first natural game end, which runs `room.matchStats.gamesPlayed++`,
dereferences `undefined` (modelled: `gameOverStatsStep` returns `none`).
The disconnect-forfeit path (`leaveRoom` guest branch) indeed never touches
`matchStats`, but the claimed invariant fails at its first conjunct: the
stats object never exists. -/
theorem matchStats_missing (code sid name : String) (opts : Settings) (now : Nat)
    (w : Option Player) (room : Room) :
    (createRoom code sid name opts now).matchStats = none
    ∧ gameOverStatsStep (createRoom code sid name opts now) w = none
    ∧ (leaveRoomGuest room).matchStats = room.matchStats :=
  ⟨rfl, rfl, rfl⟩

/-- C8 counterexample: a handshake with a missing token is NOT rejected —
the middleware sets `socket.isAuthenticated = false` and calls `next()`, so
the connection is admitted (unauthenticated), contradicting the claim that
every handshake with a missing or failing bearer token is closed with an
auth-failed reason. -/
theorem admin_handshake_cex :
    adminAuthMiddleware (fun _ => false) none = .admitted false
    ∧ adminAuthMiddleware (fun _ => false) none ≠ .rejectedAuth := by
  exact ⟨rfl, by decide⟩

/-- C8 amended: a present token that fails verification is rejected with
`next(new Error('驗證失敗'))`; a missing token is admitted with
`isAuthenticated = false` (event handlers then gate on that flag); and the
handshake is admitted as authenticated exactly when the presented token
verifies. -/
theorem admin_handshake (verify : String → Bool) (t : String) :
    (verify t = false → adminAuthMiddleware verify (some t) = .rejectedAuth)
    ∧ adminAuthMiddleware verify none = .admitted false
    ∧ (adminAuthMiddleware verify (some t) = .admitted true ↔ verify t = true) := by
  have hsome : adminAuthMiddleware verify (some t)
      = if verify t = true then .admitted true else .rejectedAuth := rfl
  refine ⟨?_, rfl, ?_, ?_⟩
  · intro h
    rw [hsome, h]
    rfl
  · intro h
    by_cases hv : verify t = true
    · exact hv
    · rw [Bool.not_eq_true] at hv
      rw [hsome, hv] at h
      exact absurd h (by decide)
  · intro h
    rw [hsome, h]
    rfl

/-- C8 witness: the amended handshake law at a concrete verifier and token:
a failing token is rejected. -/
theorem admin_handshake_witness :
    adminAuthMiddleware (fun _ => false) (some "x") = .rejectedAuth :=
  (admin_handshake (fun _ => false) "x").1 rfl

end MS
